import Mathlib

/-!
Verification development for the Timetable-Management repository.

The definitions below are a shallow embedding of the Python source:

* `services/config_service.py` — calendar generation (`generate_time_slots`):
  times of day are modelled as minutes since midnight (`Nat`); the sqlite
  `timetable_slots` table is modelled as a `List SlotRow`; deleting the rows of
  a configuration and inserting fresh ones becomes `List.filter` plus append.
  The unbounded `while current_time < end_time` loop is modelled with an
  explicit fuel argument; the fuel chosen at the call site is provably
  sufficient (each iteration advances `current_time` by at least 15 minutes).

* `services/scheduler.py` — the `TimetableScheduler` class: its mutable fields
  become the record `SchedState`, Python dicts become insertion-ordered
  association lists, and `random.choice` becomes an injected stream of
  naturals (`List Nat`), one draw per call, matching the spec's demand for a
  seedable random source.
-/

namespace Timetable

/-- Row of the `timetable_slots` table as produced by `generate_time_slots`
(`config_id, day, slot_number, start_time, end_time, is_break`); times are
minutes since midnight. -/
structure SlotRow where
  config_id : Nat
  day : String
  slot_number : Nat
  start_time : Nat
  end_time : Nat
  is_break : Bool
  deriving Repr, DecidableEq

/-- One shift of `shift_timings` (`{"start": .., "end": ..}`); `stop` stands
for the Python key `end`, a Lean keyword. -/
structure Shift where
  start : Nat
  stop : Nat
  deriving Repr, DecidableEq

/-- Row of the `academic_config` table (the fields `generate_time_slots`
reads).  In single-shift mode `shift_timings` holds exactly one element. -/
structure AcademicConfig where
  id : Nat
  working_days : String
  shift_mode : String
  shift_timings : List Shift
  deriving Repr, DecidableEq

/-- Working-day expansion in `generate_time_slots`: `Mon-Fri` gives five days,
anything else the six-day week (the Python `else` branch). -/
def working_day_list (wd : String) : List String :=
  if wd = "Mon-Fri" then
    ["Monday", "Tuesday", "Wednesday", "Thursday", "Friday"]
  else
    ["Monday", "Tuesday", "Wednesday", "Thursday", "Friday", "Saturday"]

/-- Duration, in minutes, of the slot numbered `n`: slot 3 is the 15-minute
break, slot 5 the 45-minute lunch break in single-shift mode, and every other
slot lasts 60 minutes (`generate_time_slots`, both branches). -/
def slot_duration (single : Bool) (n : Nat) : Nat :=
  if n = 3 then 15 else if single && n = 5 then 45 else 60

/-- Break flag of the slot numbered `n` (`is_break` in the source). -/
def slot_is_break (single : Bool) (n : Nat) : Bool :=
  n = 3 || (single && n = 5)

/-- Core loop of `generate_time_slots` for one (shift, day) pair:
`while current_time < end_time:` emit the slot unless its end would pass
`endT`, then continue at the slot's end with the next slot number.  `fuel`
bounds the iteration count; `genShiftDay` supplies enough of it. -/
def genSlotsFrom (cid : Nat) (day : String) (single : Bool) (endT : Nat) :
    Nat → Nat → Nat → List SlotRow
  | 0, _, _ => []
  | fuel + 1, current, n =>
    if current < endT then
      let slot_end := current + slot_duration single n
      if slot_end ≤ endT then
        { config_id := cid, day := day, slot_number := n, start_time := current,
          end_time := slot_end, is_break := slot_is_break single n } ::
        genSlotsFrom cid day single endT fuel slot_end (n + 1)
      else []
    else []

/-- Slots generated for one (shift, day) pair, slot numbers starting at 1.
The fuel `endT + 1 - startT` exceeds the iteration count, since every emitted
slot advances the current time by at least 15 minutes. -/
def genShiftDay (cid : Nat) (day : String) (single : Bool)
    (startT endT : Nat) : List SlotRow :=
  genSlotsFrom cid day single endT (endT + 1 - startT) startT 1

/-- Full slot list inserted by `generate_time_slots` for a configuration:
single-shift iterates days only; multi-shift iterates shifts outer, days
inner, exactly as the two Python branches do.  A `shift_mode` that is neither
`single` nor `multi` takes no branch and inserts nothing. -/
def generated_slots (cfg : AcademicConfig) : List SlotRow :=
  if cfg.shift_mode = "single" then
    match cfg.shift_timings with
    | s :: _ =>
        (working_day_list cfg.working_days).flatMap
          (fun day => genShiftDay cfg.id day true s.start s.stop)
    | [] => []
  else if cfg.shift_mode = "multi" then
    cfg.shift_timings.flatMap (fun sh =>
      (working_day_list cfg.working_days).flatMap
        (fun day => genShiftDay cfg.id day false sh.start sh.stop))
  else []

/-- Result of `generate_time_slots`: the Python triple
`(success, message, slots_count)` plus the resulting `timetable_slots` table
(the database side effect). -/
structure GenSlotsResult where
  success : Bool
  message : String
  count : Nat
  db : List SlotRow
  deriving Repr, DecidableEq

/-- `generate_time_slots(config_id)`: look the configuration up, delete every
existing slot of that configuration, then insert the freshly generated ones.
A single-shift configuration with empty `shift_timings` raises in Python
(missing JSON key) and rolls back, leaving the table unchanged. -/
def generate_time_slots (configs : List AcademicConfig) (config_id : Nat)
    (db : List SlotRow) : GenSlotsResult :=
  match configs.find? (fun c => c.id = config_id) with
  | none => ⟨false, "Configuration not found", 0, db⟩
  | some cfg =>
    if cfg.shift_mode = "single" ∧ cfg.shift_timings = [] then
      ⟨false, "Error generating slots: missing shift timings", 0, db⟩
    else
      let fresh := generated_slots cfg
      ⟨true, "Generated " ++ toString fresh.length ++ " time slots",
        fresh.length, db.filter (fun r => r.config_id ≠ config_id) ++ fresh⟩

/-- End time of the last slot of a generated list, `d` when none was
generated (the loop's `current_time` after it stops). -/
def last_end (d : Nat) : List SlotRow → Nat
  | [] => d
  | s :: rest => last_end s.end_time rest

/-! ## Scheduler embedding (`services/scheduler.py`, class `TimetableScheduler`)

Python dicts (`schedule`, `faculty_load`, `room_assignments`) are modelled as
insertion-ordered association lists; `dict[k] = v` is `dict_set` (replace in
place when the key exists, append otherwise).  The only nondeterminism,
`random.choice`, consumes one draw from an injected stream `rng : List Nat`.
-/

/-- Slot record as the scheduler sees it (a non-break `timetable_slots` row):
`id, day, slot_number, start_time, end_time`. -/
structure Slot where
  id : Nat
  day : String
  slot_number : Nat
  start_time : Nat
  end_time : Nat
  deriving Repr, DecidableEq

/-- Row of the `subject` table (the fields the scheduler reads). -/
structure Subject where
  id : Nat
  subject_name : String
  code : String
  semester : Nat
  lecture_credits : Nat
  lab_credits : Nat
  deriving Repr, DecidableEq

/-- Row of the `faculty` table (the fields the scheduler reads). -/
structure Faculty where
  id : Nat
  availability : String
  max_hours_per_week : Nat
  deriving Repr, DecidableEq

/-- Row of the `locations` table (the fields `assign_room` reads). -/
structure Location where
  id : Nat
  room_type : String
  capacity : Nat
  deriving Repr, DecidableEq

/-- Value stored in the `schedule` dict for one slot. -/
structure Assignment where
  subject_id : Nat
  faculty_id : Nat
  slot_type : String
  deriving Repr, DecidableEq

/-- One detected conflict; `entity_id` is the `faculty_id` or `room_id` key
of the Python dict, depending on `ctype`. -/
structure Conflict where
  ctype : String
  entity_id : Nat
  day : String
  time : Nat
  slots : List Nat
  deriving Repr, DecidableEq

/-- Mutable state of a `TimetableScheduler` instance (the fields the
algorithms touch; `day_slot_map` and `min_gap_between_sessions` are built but
never read by any of them and are omitted). -/
structure SchedState where
  subjects : List Subject
  faculty : List Faculty
  available_slots : List Slot
  locations : List Location
  schedule : List (Nat × Assignment)
  faculty_load : List (Nat × Nat)
  room_assignments : List (Nat × Nat)
  max_consecutive_hours : Nat
  conflicts : List Conflict
  warnings : List String
  deriving Repr, DecidableEq

/-- Python `str.split(sep)` for a one-character separator, on `List Char`. -/
def py_split_char (c : Char) : List Char → List (List Char)
  | [] => [[]]
  | x :: xs =>
    if x = c then [] :: py_split_char c xs
    else
      match py_split_char c xs with
      | [] => [[x]]
      | y :: ys => (x :: y) :: ys

/-- Python `str.split(sep)` on `String`. -/
def py_split (s : String) (c : Char) : List String :=
  (py_split_char c s.data).map (fun l => String.mk l)

/-- Python `str.strip()`: drop whitespace from both ends. -/
def py_strip (s : String) : String :=
  String.mk (((s.data.dropWhile (fun ch => ch.isWhitespace)).reverse.dropWhile
    (fun ch => ch.isWhitespace)).reverse)

/-- Python `c in s` for a one-character needle. -/
def py_contains_char (s : String) (c : Char) : Bool :=
  s.data.contains c

/-- The `day_map` dict of `_parse_availability`. -/
def day_map : List (String × String) :=
  [("Mon", "Monday"), ("Tue", "Tuesday"), ("Wed", "Wednesday"),
   ("Thu", "Thursday"), ("Fri", "Friday"), ("Sat", "Saturday")]

/-- Python `day_map.get(d, d)`. -/
def day_map_get (d : String) : String :=
  match day_map.find? (fun p => p.1 = d) with
  | some p => p.2
  | none => d

/-- `TimetableScheduler._parse_availability`: split on `-` if present, else
on `,`, else the whole string, then map each stripped part through
`day_map`. -/
def _parse_availability (availability_str : String) : List String :=
  let short_days :=
    if py_contains_char availability_str '-' then py_split availability_str '-'
    else if py_contains_char availability_str ',' then
      py_split availability_str ','
    else [availability_str]
  short_days.map (fun d => day_map_get (py_strip d))

/-- Dict lookup in an association list (first entry with the key). -/
def dict_find? {α : Type} (k : Nat) (m : List (Nat × α)) : Option α :=
  (m.find? (fun p => p.1 = k)).map (fun p => p.2)

/-- Python `dict[k] = v`: replace in place if the key exists, else append. -/
def dict_set {α : Type} (k : Nat) (v : α) (m : List (Nat × α)) :
    List (Nat × α) :=
  if (m.find? (fun p => p.1 = k)).isSome then
    m.map (fun p => if p.1 = k then (k, v) else p)
  else m ++ [(k, v)]

/-- Python `slot_id in self.schedule`. -/
def slot_assigned (st : SchedState) (slot_id : Nat) : Bool :=
  (dict_find? slot_id st.schedule).isSome

/-- `next((s for s in self.available_slots if s['id'] == sid), None)`. -/
def find_slot (st : SchedState) (sid : Nat) : Option Slot :=
  st.available_slots.find? (fun s => s.id = sid)

/-- Insertion-ordered distinct keys, as Python dict insertion builds them. -/
def dict_keys_of : List Nat → List Nat
  | [] => []
  | k :: ks => k :: (dict_keys_of ks).filter (fun x => x ≠ k)

/-- `load_data`'s `self.faculty_load[faculty['id']] = 0` loop. -/
def init_loads (fl : List Faculty) : List (Nat × Nat) :=
  (dict_keys_of (fl.map (fun f => f.id))).map (fun k => (k, 0))

/-- `self.faculty_load[faculty_id]` (0 for an absent key; the scheduler only
reads keys it initialised). -/
def load_get (fid : Nat) (m : List (Nat × Nat)) : Nat :=
  ((m.find? (fun p => p.1 = fid)).map (fun p => p.2)).getD 0

/-- `self.faculty_load[faculty_id] += 1` (no-op on an absent key; the
scheduler only increments keys it initialised). -/
def load_inc (fid : Nat) (m : List (Nat × Nat)) : List (Nat × Nat) :=
  m.map (fun p => if p.1 = fid then (p.1, p.2 + 1) else p)

/-- The already-booked-at-this-time scan of `is_faculty_available`: some
schedule entry of this faculty sits on a slot with the same day and start
time. -/
def faculty_time_conflict (st : SchedState) (faculty_id : Nat)
    (slot : Slot) : Bool :=
  st.schedule.any (fun p =>
    decide (p.2.faculty_id = faculty_id) &&
    match find_slot st p.1 with
    | some s => decide (s.day = slot.day ∧ s.start_time = slot.start_time)
    | none => false)

/-- Slot numbers already assigned to this faculty on this day, in schedule
order (the `faculty_day_slots` list of `_check_consecutive_hours`). -/
def faculty_day_slot_numbers (st : SchedState) (faculty_id : Nat)
    (day : String) : List Nat :=
  st.schedule.filterMap (fun p =>
    if p.2.faculty_id = faculty_id then
      match find_slot st p.1 with
      | some s => if s.day = day then some s.slot_number else none
      | none => none
    else none)

/-- Python `list.sort()` on naturals via insertion sort (the sorted multiset
is unique, so any correct ascending sort is the same list). -/
def insert_sorted (x : Nat) : List Nat → List Nat
  | [] => [x]
  | y :: ys => if x ≤ y then x :: y :: ys else y :: insert_sorted x ys

/-- Ascending sort of the slot-number list. -/
def py_sort : List Nat → List Nat
  | [] => []
  | x :: xs => insert_sorted x (py_sort xs)

/-- The consecutive-run loop of `_check_consecutive_hours`: walk the sorted
list with the previous value and the current run length, failing as soon as a
run exceeds `maxC`. -/
def check_run_aux (maxC : Nat) : Nat → Nat → List Nat → Bool
  | _, _, [] => true
  | prev, consec, x :: xs =>
    if x = prev + 1 then
      if consec + 1 > maxC then false else check_run_aux maxC x (consec + 1) xs
    else check_run_aux maxC x 1 xs

/-- `TimetableScheduler._check_consecutive_hours`. -/
def _check_consecutive_hours (st : SchedState) (faculty_id : Nat)
    (slot : Slot) : Bool :=
  match py_sort (faculty_day_slot_numbers st faculty_id slot.day ++
      [slot.slot_number]) with
  | [] => true
  | x :: xs => check_run_aux st.max_consecutive_hours x 1 xs

/-- `TimetableScheduler.is_faculty_available`: the four checks in source
order, first failure wins; pure (returns no new state). -/
def is_faculty_available (st : SchedState) (faculty_id : Nat) (slot : Slot) :
    Bool × String :=
  match st.faculty.find? (fun f => f.id = faculty_id) with
  | none => (false, "Faculty not found")
  | some faculty =>
    if slot.day ∉ _parse_availability faculty.availability then
      (false, "Faculty not available on " ++ slot.day)
    else if faculty_time_conflict st faculty_id slot then
      (false, "Faculty already scheduled at this time")
    else if load_get faculty_id st.faculty_load ≥ faculty.max_hours_per_week
        then
      (false, "Faculty weekly hour limit reached")
    else if ¬ (_check_consecutive_hours st faculty_id slot = true) then
      (false, "Exceeds " ++ toString st.max_consecutive_hours ++
        " consecutive hours limit")
    else (true, "Available")

/-- Loop body of `find_consecutive_slots`: `i` counts from 0 to `count - 1`,
looking for an unassigned slot numbered `start_slot_number + i` on the day. -/
def find_consecutive_slots_aux (st : SchedState) (day : String)
    (start_slot_number : Nat) : Nat → Nat → Option (List Nat)
  | _, 0 => some []
  | i, count + 1 =>
    match st.available_slots.find? (fun s =>
        s.day = day ∧ s.slot_number = start_slot_number + i) with
    | none => none
    | some target =>
      if slot_assigned st target.id then none
      else
        match find_consecutive_slots_aux st day start_slot_number (i + 1)
            count with
        | none => none
        | some rest => some (target.id :: rest)

/-- `TimetableScheduler.find_consecutive_slots`. -/
def find_consecutive_slots (st : SchedState) (day : String)
    (start_slot_number : Nat) (count : Nat) : Option (List Nat) :=
  find_consecutive_slots_aux st day start_slot_number 0 count

/-- `TimetableScheduler.assign_slot`. -/
def assign_slot (st : SchedState) (slot_id subject_id faculty_id : Nat)
    (slot_type : String) : SchedState :=
  { st with
    schedule := dict_set slot_id
      ⟨subject_id, faculty_id, slot_type⟩ st.schedule,
    faculty_load := load_inc faculty_id st.faculty_load }

/-- The room-removal loop of `assign_room`: for every room assignment on a
slot sharing the candidate's day and start time, drop that room from the
suitable list. -/
def remove_occupied (st : SchedState) (slot : Slot) :
    List Location → List (Nat × Nat) → List Location
  | rooms, [] => rooms
  | rooms, (sid, rid) :: rest =>
    match find_slot st sid with
    | some s2 =>
      if s2.day = slot.day then
        if s2.start_time = slot.start_time then
          remove_occupied st slot (rooms.filter (fun r => r.id ≠ rid)) rest
        else remove_occupied st slot rooms rest
      else remove_occupied st slot rooms rest
    | none => remove_occupied st slot rooms rest

/-- Python `min(iterable, key=...)`: keep the first element whose key is
strictly smaller than the best so far. -/
def py_min_by (key : Location → Nat) : Location → List Location → Location
  | best, [] => best
  | best, r :: rest =>
    if key r < key best then py_min_by key r rest else py_min_by key best rest

/-- `TimetableScheduler.assign_room` (the `subject` parameter of the source
is never read and is omitted).  Returns the new state and the room id
assigned, if any. -/
def assign_room (st : SchedState) (slot_id : Nat) (slot_type : String) :
    SchedState × Option Nat :=
  let required_type := if slot_type = "lab" then "Lab" else "Classroom"
  let min_capacity : Nat := if slot_type = "lab" then 30 else 50
  match find_slot st slot_id with
  | none => (st, none)
  | some slot =>
    let suitable_rooms := st.locations.filter (fun loc =>
      loc.room_type = required_type ∧ loc.capacity ≥ min_capacity)
    match remove_occupied st slot suitable_rooms st.room_assignments with
    | [] =>
      ({ st with warnings := st.warnings ++
          ["No suitable room found for slot " ++ toString slot_id] }, none)
    | r :: rest =>
      let best := py_min_by (fun r2 => Nat.dist r2.capacity min_capacity) r
        rest
      ({ st with
          room_assignments := dict_set slot_id best.id st.room_assignments },
        some best.id)

/-- `TimetableScheduler.get_eligible_faculty` (returns all faculty ids). -/
def get_eligible_faculty (st : SchedState) : List Nat :=
  st.faculty.map (fun f => f.id)

/-- `random.choice(xs)` driven by the injected stream: the next draw `r`
selects index `r % len(xs)`; an exhausted stream falls back to the head. -/
def py_choice {α : Type} (xs : List α) (rng : List Nat) :
    Option α × List Nat :=
  match xs with
  | [] => (none, rng)
  | x :: rest =>
    match rng with
    | [] => (some x, [])
    | r :: rng' =>
      (some ((x :: rest).get ⟨r % (rest.length + 1),
        by simpa using Nat.mod_lt r (Nat.succ_pos rest.length)⟩), rng')

/-- The inner `for faculty_id in eligible_faculty` loop of
`schedule_lectures`: commit the first available faculty (slot assignment plus
room assignment), or report failure. -/
def try_faculty_lecture (subject_id : Nat) (slot : Slot) :
    SchedState → List Nat → Option SchedState
  | _, [] => none
  | st, fid :: rest =>
    if (is_faculty_available st fid slot).1 then
      some (assign_room (assign_slot st slot.id subject_id fid "lecture")
        slot.id "lecture").1
    else try_faculty_lecture subject_id slot st rest

/-- The `while scheduled < lecture_hours and attempts < max_attempts` loop of
`schedule_lectures`; the fuel is the remaining attempt budget.  Returns the
scheduled count, the state and the remaining random stream. -/
def schedule_lectures_loop (subject_id : Nat) (lecture_hours : Nat)
    (eligible : List Nat) :
    Nat → Nat → List String → SchedState → List Nat →
    Nat × SchedState × List Nat
  | 0, scheduled, _, st, rng => (scheduled, st, rng)
  | fuel + 1, scheduled, days_used, st, rng =>
    if scheduled < lecture_hours then
      let preferred1 := st.available_slots.filter (fun s =>
        s.day ∉ days_used ∧ ¬ slot_assigned st s.id = true)
      let preferred := if preferred1.isEmpty then
          st.available_slots.filter (fun s => ¬ slot_assigned st s.id = true)
        else preferred1
      match py_choice preferred rng with
      | (none, rng') => (scheduled, st, rng')
      | (some slot, rng') =>
        match try_faculty_lecture subject_id slot st eligible with
        | some st' =>
          schedule_lectures_loop subject_id lecture_hours eligible fuel
            (scheduled + 1) (days_used ++ [slot.day]) st' rng'
        | none =>
          schedule_lectures_loop subject_id lecture_hours eligible fuel
            scheduled days_used st rng'
    else (scheduled, st, rng)

/-- `TimetableScheduler.schedule_lectures`.  Returns
`((success, scheduled), state, remaining stream)`. -/
def schedule_lectures (st : SchedState) (rng : List Nat) (subject : Subject) :
    (Bool × Nat) × SchedState × List Nat :=
  let lecture_hours := subject.lecture_credits
  if lecture_hours = 0 then ((true, 0), st, rng)
  else
    let eligible := get_eligible_faculty st
    if eligible.isEmpty then ((false, 0), st, rng)
    else
      let max_attempts := st.available_slots.length * 2
      let r := schedule_lectures_loop subject.id lecture_hours eligible
        max_attempts 0 [] st rng
      ((r.1 = lecture_hours, r.1), r.2.1, r.2.2)

/-- The `for sid in consecutive_slots` commit loop of `schedule_labs`:
assign the slot and a room for each id of the block, in order. -/
def lab_block_commit (subject_id fid : Nat) :
    SchedState → List Nat → SchedState
  | st, [] => st
  | st, sid :: rest =>
    lab_block_commit subject_id fid
      (assign_room (assign_slot st sid subject_id fid "lab") sid "lab").1 rest

/-- The `for faculty_id in eligible_faculty` loop of `schedule_labs`: the
first faculty available for every slot of the block gets the whole block (an
id the slot table cannot resolve counts as unavailable; the ids produced by
`find_consecutive_slots` always resolve). -/
def try_faculty_lab (st : SchedState) (subject_id : Nat)
    (consecutive_slots : List Nat) : List Nat → Option SchedState
  | [] => none
  | fid :: rest =>
    if consecutive_slots.all (fun sid =>
        match find_slot st sid with
        | some s => (is_faculty_available st fid s).1
        | none => false) then
      some (lab_block_commit subject_id fid st consecutive_slots)
    else try_faculty_lab st subject_id consecutive_slots rest

/-- Stable insertion into a list sorted ascending by slot number. -/
def insert_by_slot_number (x : Slot) : List Slot → List Slot
  | [] => [x]
  | y :: ys =>
    if x.slot_number ≤ y.slot_number then x :: y :: ys
    else y :: insert_by_slot_number x ys

/-- Python `sorted(day_slots, key=lambda x: x['slot_number'])`. -/
def sort_by_slot_number : List Slot → List Slot
  | [] => []
  | x :: xs => insert_by_slot_number x (sort_by_slot_number xs)

/-- The `for slot in day_slots` loop of `schedule_labs`: stop once enough
blocks are placed; otherwise look for a free 2-slot window starting at the
slot's number and offer it to the faculty in order. -/
def schedule_labs_day_loop (subject_id : Nat) (eligible : List Nat)
    (blocks_needed : Nat) (day : String) :
    List Slot → Nat → SchedState → Nat × SchedState
  | [], scheduled_blocks, st => (scheduled_blocks, st)
  | slot :: restSlots, scheduled_blocks, st =>
    if scheduled_blocks ≥ blocks_needed then (scheduled_blocks, st)
    else
      match find_consecutive_slots st day slot.slot_number 2 with
      | none => schedule_labs_day_loop subject_id eligible blocks_needed day
          restSlots scheduled_blocks st
      | some consecutive_slots =>
        match try_faculty_lab st subject_id consecutive_slots eligible with
        | some st' => schedule_labs_day_loop subject_id eligible blocks_needed
            day restSlots (scheduled_blocks + 1) st'
        | none => schedule_labs_day_loop subject_id eligible blocks_needed day
            restSlots scheduled_blocks st

/-- Python `list(set(...))` over the slot days.  CPython's set order is an
implementation detail; the model fixes first-occurrence order, and no claim
depends on the choice. -/
def py_set_list : List String → List String
  | [] => []
  | d :: ds => d :: (py_set_list ds).filter (fun x => x ≠ d)

/-- The `for day in days` loop of `schedule_labs`. -/
def schedule_labs_days_loop (subject_id : Nat) (eligible : List Nat)
    (blocks_needed : Nat) : List String → Nat → SchedState →
    Nat × SchedState
  | [], blocks, st => (blocks, st)
  | day :: days, blocks, st =>
    if blocks ≥ blocks_needed then (blocks, st)
    else
      let day_slots := sort_by_slot_number
        (st.available_slots.filter (fun s => s.day = day))
      let r := schedule_labs_day_loop subject_id eligible blocks_needed day
        day_slots blocks st
      schedule_labs_days_loop subject_id eligible blocks_needed days r.1 r.2

/-- `TimetableScheduler.schedule_labs`.  Returns
`((success, scheduled_blocks), state)`. -/
def schedule_labs (st : SchedState) (subject : Subject) :
    (Bool × Nat) × SchedState :=
  let lab_hours := subject.lab_credits
  if lab_hours = 0 then ((true, 0), st)
  else
    let blocks_needed := (lab_hours + 1) / 2
    let eligible := get_eligible_faculty st
    if eligible.isEmpty then ((false, 0), st)
    else
      let days := py_set_list (st.available_slots.map (fun s => s.day))
      let r := schedule_labs_days_loop subject.id eligible blocks_needed days
        0 st
      ((decide (r.1 ≥ blocks_needed), r.1), r.2)

/-- Per-subject statistics of `schedule_subject` (`part_scheduled` appears in
the run totals, not here). -/
structure SubjectStats where
  subject_name : String
  code : String
  lectures_needed : Nat
  lectures_scheduled : Nat
  labs_needed : Nat
  labs_scheduled : Nat
  success : Bool
  deriving Repr, DecidableEq

/-- `TimetableScheduler.schedule_subject`: lectures first, then labs;
`labs_scheduled` counts hours, i.e. two per block. -/
def schedule_subject (st : SchedState) (rng : List Nat) (subject : Subject) :
    SubjectStats × SchedState × List Nat :=
  let lec := schedule_lectures st rng subject
  let lab := schedule_labs lec.2.1 subject
  (⟨subject.subject_name, subject.code, subject.lecture_credits, lec.1.2,
    subject.lab_credits, lab.1.2 * 2, lec.1.1 && lab.1.1⟩, lab.2, lec.2.2)

/-- `TimetableScheduler.get_subject_priority`. -/
def get_subject_priority (subject : Subject) : Nat × Nat × Nat :=
  (subject.lecture_credits + subject.lab_credits, subject.lab_credits,
    subject.lecture_credits)

/-- Lexicographic `≤` on priority triples (Python tuple comparison). -/
def prio_le (a b : Nat × Nat × Nat) : Bool :=
  a.1 < b.1 ∨ (a.1 = b.1 ∧
    (a.2.1 < b.2.1 ∨ (a.2.1 = b.2.1 ∧ a.2.2 ≤ b.2.2)))

/-- Stable insertion for the descending priority sort
(`sort(key=..., reverse=True)`): a subject goes before the first one whose
priority is at most its own, so equal priorities keep their input order. -/
def insert_subject_desc (x : Subject) : List Subject → List Subject
  | [] => [x]
  | y :: ys =>
    if prio_le (get_subject_priority y) (get_subject_priority x) then
      x :: y :: ys
    else y :: insert_subject_desc x ys

/-- The descending priority sort of `generate_schedule`. -/
def sort_subjects_desc : List Subject → List Subject
  | [] => []
  | x :: xs => insert_subject_desc x (sort_subjects_desc xs)

/-- The per-subject scheduling loop of `generate_schedule`, returning the
details list in subject order. -/
def schedule_all_subjects : List Subject → SchedState → List Nat →
    List SubjectStats × SchedState × List Nat
  | [], st, rng => ([], st, rng)
  | subj :: rest, st, rng =>
    let r := schedule_subject st rng subj
    let rr := schedule_all_subjects rest r.2.1 r.2.2
    (r.1 :: rr.1, rr.2)

/-- The fully/partially/failed tally of `generate_schedule` over the details
list. -/
def tally_results : List SubjectStats → Nat × Nat × Nat
  | [] => (0, 0, 0)
  | d :: ds =>
    let t := tally_results ds
    if d.success then (t.1 + 1, t.2.1, t.2.2)
    else if d.lectures_scheduled > 0 ∨ d.labs_scheduled > 0 then
      (t.1, t.2.1 + 1, t.2.2)
    else (t.1, t.2.1, t.2.2 + 1)

/-- Faculty half of `detect_conflicts`: walk the schedule, remembering the
first slot seen per (faculty, day, start-time) key and reporting every later
hit.  The Python f-string key `day_starttime` is modelled as the pair
itself. -/
def conflict_scan_faculty (st : SchedState) :
    List (Nat × Assignment) → List ((Nat × String × Nat) × Nat) →
    List Conflict
  | [], _ => []
  | (slot_id, a) :: rest, seen =>
    match find_slot st slot_id with
    | none => conflict_scan_faculty st rest seen
    | some slot =>
      match seen.find? (fun p => p.1 = (a.faculty_id, slot.day,
          slot.start_time)) with
      | some p =>
        ⟨"faculty_double_booking", a.faculty_id, slot.day, slot.start_time,
          [p.2, slot_id]⟩ :: conflict_scan_faculty st rest seen
      | none => conflict_scan_faculty st rest
          (seen ++ [((a.faculty_id, slot.day, slot.start_time), slot_id)])

/-- Room half of `detect_conflicts`, over the room-assignment map. -/
def conflict_scan_room (st : SchedState) :
    List (Nat × Nat) → List ((Nat × String × Nat) × Nat) → List Conflict
  | [], _ => []
  | (slot_id, room_id) :: rest, seen =>
    match find_slot st slot_id with
    | none => conflict_scan_room st rest seen
    | some slot =>
      match seen.find? (fun p => p.1 = (room_id, slot.day,
          slot.start_time)) with
      | some p =>
        ⟨"room_double_booking", room_id, slot.day, slot.start_time,
          [p.2, slot_id]⟩ :: conflict_scan_room st rest seen
      | none => conflict_scan_room st rest
          (seen ++ [((room_id, slot.day, slot.start_time), slot_id)])

/-- `TimetableScheduler.detect_conflicts`. -/
def detect_conflicts (st : SchedState) : SchedState :=
  { st with conflicts := conflict_scan_faculty st st.schedule [] ++
      conflict_scan_room st st.room_assignments [] }

/-- Run summary of `generate_schedule` (`part_scheduled` stands for the
Python key `partially_scheduled`). -/
structure RunResults where
  total_subjects : Nat
  successfully_scheduled : Nat
  part_scheduled : Nat
  failed : Nat
  details : List SubjectStats
  conflicts : Nat
  warnings : Nat
  deriving Repr, DecidableEq

/-- Second component of `generate_schedule`'s return value: the error dict
or the results dict. -/
inductive GenOutput where
  | err (msg : String)
  | ok (results : RunResults)
  deriving Repr, DecidableEq

/-- Scheduler state right after `__init__` plus `load_data`: the loaded
lists, zero-initialised faculty loads, empty schedule/rooms/warnings, and the
constructor constant `max_consecutive_hours = 3`. -/
def init_state (subjects : List Subject) (faculty : List Faculty)
    (available_slots : List Slot) (locations : List Location) : SchedState :=
  { subjects := subjects, faculty := faculty,
    available_slots := available_slots, locations := locations,
    schedule := [], faculty_load := init_loads faculty,
    room_assignments := [], max_consecutive_hours := 3, conflicts := [],
    warnings := [] }

/-- `TimetableScheduler.generate_schedule`, as a function of the loaded data
and the random stream.  `load_data` reports failure exactly when the subject
or faculty list is empty; in that case the error dict is returned with no
assignment attempted. -/
def generate_schedule (subjects : List Subject) (faculty : List Faculty)
    (available_slots : List Slot) (locations : List Location)
    (rng : List Nat) : (Bool × GenOutput) × SchedState :=
  let st := init_state subjects faculty available_slots locations
  if subjects.isEmpty ∨ faculty.isEmpty then
    ((false, GenOutput.err "Failed to load data"), st)
  else
    let sorted := sort_subjects_desc subjects
    let st1 := { st with subjects := sorted }
    let r := schedule_all_subjects sorted st1 rng
    let st2 := detect_conflicts r.2.1
    let t := tally_results r.1
    ((true, GenOutput.ok ⟨sorted.length, t.1, t.2.1, t.2.2, r.1,
      st2.conflicts.length, st2.warnings.length⟩), st2)

/-! ## Specification-side definitions

These phrase the spec's wording of the checked properties; the theorems relate
them to the embedded code. -/

/-- Longest run of contiguous values continuing a run of length `run` that
ends at `prev`. -/
def max_run_aux (prev run : Nat) : List Nat → Nat
  | [] => run
  | x :: xs =>
    if x = prev + 1 then max_run_aux x (run + 1) xs
    else max run (max_run_aux x 1 xs)

/-- Longest run of contiguous values (each one more than its predecessor) in
a sorted list — the spec's "run of contiguous slot numbers". -/
def max_run : List Nat → Nat
  | [] => 0
  | x :: xs => max_run_aux x 1 xs

/-- The spec's room-occupancy condition: some entry of the room-assignment
map holds this room on a slot with the candidate slot's day and start time. -/
def occupied_at (st : SchedState) (slot : Slot) (room_id : Nat) : Prop :=
  ∃ p ∈ st.room_assignments, p.2 = room_id ∧ ∃ s2,
    find_slot st p.1 = some s2 ∧ s2.day = slot.day ∧
    s2.start_time = slot.start_time

/-- Occupancy of a room at the candidate slot's (day, start-time), over an
explicit room-assignment list (the loop-internal view of `occupied_at`). -/
def occupied_in (st : SchedState) (slot : Slot) (RA : List (Nat × Nat))
    (room_id : Nat) : Bool :=
  RA.any (fun p =>
    decide (p.2 = room_id) &&
    match find_slot st p.1 with
    | some s2 => decide (s2.day = slot.day ∧ s2.start_time = slot.start_time)
    | none => false)

/-- The spec's lab-block shape: every lab assignment has a partner lab
assignment of the same subject and faculty on the same day whose slot number
differs by exactly one. -/
def lab_paired (st : SchedState) : Prop :=
  ∀ sid a, (sid, a) ∈ st.schedule → a.slot_type = "lab" →
    ∃ sid2 a2 s s2, (sid2, a2) ∈ st.schedule ∧ sid2 ≠ sid ∧
      a2.slot_type = "lab" ∧ a2.faculty_id = a.faculty_id ∧
      a2.subject_id = a.subject_id ∧
      find_slot st sid = some s ∧ find_slot st sid2 = some s2 ∧
      s2.day = s.day ∧
      (s2.slot_number = s.slot_number + 1 ∨
        s.slot_number = s2.slot_number + 1)

/-- Step relation used in the lab-pairing proof: an operation keeps the slot
table unchanged and, on a duplicate-free slot table, maps lab-paired states
to lab-paired states. -/
def preserves (st st' : SchedState) : Prop :=
  st'.available_slots = st.available_slots ∧
  ((st.available_slots.map (fun s => s.id)).Nodup → lab_paired st →
    lab_paired st')

/-- Mean of the faculty loads, as a real (0 when there are none). -/
noncomputable def mean_load (st : SchedState) : ℝ :=
  (st.faculty_load.map (fun p => (p.2 : ℝ))).sum / (st.faculty_load.length : ℝ)

/-- Population standard deviation of the faculty loads. -/
noncomputable def stddev_load (st : SchedState) : ℝ :=
  Real.sqrt (((st.faculty_load.map (fun p => ((p.2 : ℝ) - mean_load st) ^ 2)).sum) /
    (st.faculty_load.length : ℝ))

/-- Metrics dict of `get_optimization_score`. -/
structure OptScore where
  faculty_load_balance : ℝ
  room_utilization : ℝ
  schedule_density : ℝ
  overall_score : ℝ

/-- `TimetableScheduler._calculate_load_balance`, over exact reals (the
Python floats idealised). -/
noncomputable def _calculate_load_balance (st : SchedState) : ℝ :=
  if st.faculty_load.isEmpty then 0
  else
    let loads : List ℝ := st.faculty_load.map (fun p => (p.2 : ℝ))
    let avg_load := loads.sum / (loads.length : ℝ)
    if avg_load = 0 then 0
    else
      let variance := (loads.map (fun l => (l - avg_load) ^ 2)).sum /
        (loads.length : ℝ)
      max 0 (1 - Real.sqrt variance / avg_load)

/-- `TimetableScheduler._calculate_room_utilization`. -/
noncomputable def _calculate_room_utilization (st : SchedState) : ℝ :=
  if st.locations.isEmpty then 0
  else if 0 < st.available_slots.length then
    (st.room_assignments.length : ℝ) / (st.available_slots.length : ℝ)
  else 0

/-- `TimetableScheduler._calculate_schedule_density`. -/
noncomputable def _calculate_schedule_density (st : SchedState) : ℝ :=
  if 0 < st.available_slots.length then
    (st.schedule.length : ℝ) / (st.available_slots.length : ℝ)
  else 0

/-- `TimetableScheduler.get_optimization_score`: the three metrics and their
fixed-weight combination; pure (returns no new state). -/
noncomputable def get_optimization_score (st : SchedState) : OptScore :=
  let lb := _calculate_load_balance st
  let ru := _calculate_room_utilization st
  let sd := _calculate_schedule_density st
  ⟨lb, ru, sd, lb * 0.4 + ru * 0.3 + sd * 0.3⟩

lemma slot_duration_pos (single : Bool) (n : Nat) :
    15 ≤ slot_duration single n := by
  unfold slot_duration
  split <;> [skip; split] <;> omega

lemma slot_duration_of_not_break (single : Bool) (n : Nat)
    (h : slot_is_break single n = false) : slot_duration single n = 60 := by
  unfold slot_is_break at h
  rcases Bool.or_eq_false_iff.mp h with ⟨h3, h5⟩
  have h3' : ¬ n = 3 := by simpa using h3
  simp [slot_duration, h3', h5]

/-- Every slot the loop emits carries the configuration id and day it was
called with, the break flag and duration dictated by its slot number, and an
end time within the shift. -/
lemma genSlotsFrom_mem (cid : Nat) (day : String) (single : Bool)
    (endT : Nat) :
    ∀ fuel cur n s, s ∈ genSlotsFrom cid day single endT fuel cur n →
      s.config_id = cid ∧ s.day = day ∧
      s.is_break = slot_is_break single s.slot_number ∧
      s.end_time = s.start_time + slot_duration single s.slot_number ∧
      s.end_time ≤ endT := by
  intro fuel
  induction fuel with
  | zero => intro cur n s h; simp [genSlotsFrom] at h
  | succ fuel ih =>
    intro cur n s h
    unfold genSlotsFrom at h
    by_cases hc : cur < endT
    · simp only [if_pos hc] at h
      by_cases he : cur + slot_duration single n ≤ endT
      · simp only [if_pos he, List.mem_cons] at h
        rcases h with rfl | h
        · exact ⟨rfl, rfl, rfl, rfl, he⟩
        · exact ih _ _ s h
      · simp [if_neg he] at h
    · simp [if_neg hc] at h

/-- Slot numbers of the emitted list are consecutive starting at `n`. -/
lemma genSlotsFrom_map_slot_number (cid : Nat) (day : String) (single : Bool)
    (endT : Nat) :
    ∀ fuel cur n,
      (genSlotsFrom cid day single endT fuel cur n).map (·.slot_number) =
        List.range' n (genSlotsFrom cid day single endT fuel cur n).length := by
  intro fuel
  induction fuel with
  | zero => intro cur n; simp [genSlotsFrom]
  | succ fuel ih =>
    intro cur n
    unfold genSlotsFrom
    by_cases hc : cur < endT
    · simp only [if_pos hc]
      by_cases he : cur + slot_duration single n ≤ endT
      · simp only [if_pos he, List.map_cons, List.length_cons, List.range'_succ]
        rw [ih]
      · simp [if_neg he]
    · simp [if_neg hc]

/-- The first emitted slot starts at the loop's current time, and each later
slot starts where its predecessor ended. -/
lemma genSlotsFrom_chain (cid : Nat) (day : String) (single : Bool)
    (endT : Nat) :
    ∀ fuel cur n,
      (∀ s, (genSlotsFrom cid day single endT fuel cur n).head? = some s →
        s.start_time = cur) ∧
      List.Chain' (fun a b => b.start_time = a.end_time)
        (genSlotsFrom cid day single endT fuel cur n) := by
  intro fuel
  induction fuel with
  | zero => intro cur n; simp [genSlotsFrom]
  | succ fuel ih =>
    intro cur n
    unfold genSlotsFrom
    by_cases hc : cur < endT
    · simp only [if_pos hc]
      by_cases he : cur + slot_duration single n ≤ endT
      · simp only [if_pos he]
        constructor
        · intro s hs
          simp only [List.head?_cons, Option.some.injEq] at hs
          rw [← hs]
        · rw [List.chain'_cons']
          refine ⟨?_, (ih _ _).2⟩
          intro b hb
          exact (ih (cur + slot_duration single n) (n + 1)).1 b hb
      · simp [if_neg he]
    · simp [if_neg hc]

/-- With sufficient fuel the loop stops only when no further slot fits: at the
stopping time either the shift is over, or the next slot would end past the
shift end.  In particular a slot ending exactly at the shift end is emitted,
never dropped. -/
lemma genSlotsFrom_maximal (cid : Nat) (day : String) (single : Bool)
    (endT : Nat) :
    ∀ fuel cur n, (endT - cur < fuel ∨ endT ≤ cur) →
      ¬(last_end cur (genSlotsFrom cid day single endT fuel cur n) < endT ∧
        last_end cur (genSlotsFrom cid day single endT fuel cur n) +
          slot_duration single
            (n + (genSlotsFrom cid day single endT fuel cur n).length) ≤
          endT) := by
  intro fuel
  induction fuel with
  | zero =>
    intro cur n hf
    have hcur : endT ≤ cur := by omega
    simp only [genSlotsFrom, last_end]
    omega
  | succ fuel ih =>
    intro cur n hf
    unfold genSlotsFrom
    by_cases hc : cur < endT
    · simp only [if_pos hc]
      by_cases he : cur + slot_duration single n ≤ endT
      · simp only [if_pos he, last_end, List.length_cons]
        have hd := slot_duration_pos single n
        have hrec := ih (cur + slot_duration single n) (n + 1) (by omega)
        have hlen : n + ((genSlotsFrom cid day single endT fuel
            (cur + slot_duration single n) (n + 1)).length + 1) =
            n + 1 + (genSlotsFrom cid day single endT fuel
              (cur + slot_duration single n) (n + 1)).length := by omega
        rw [hlen]
        exact hrec
      · simp only [if_neg he, last_end, List.length_nil, Nat.add_zero]
        omega
    · simp only [if_neg hc, last_end, List.length_nil, Nat.add_zero]
      omega

/-- Every slot in `generated_slots` bears the configuration's id. -/
lemma generated_slots_config_id (cfg : AcademicConfig) :
    ∀ s ∈ generated_slots cfg, s.config_id = cfg.id := by
  intro s hs
  unfold generated_slots at hs
  by_cases h1 : cfg.shift_mode = "single"
  · simp only [if_pos h1] at hs
    cases hts : cfg.shift_timings with
    | nil => rw [hts] at hs; simp at hs
    | cons sh rest =>
      rw [hts] at hs
      simp only [List.mem_flatMap] at hs
      obtain ⟨day, _, hmem⟩ := hs
      exact (genSlotsFrom_mem cfg.id day true sh.stop _ _ _ s hmem).1
  · simp only [if_neg h1] at hs
    by_cases h2 : cfg.shift_mode = "multi"
    · simp only [if_pos h2, List.mem_flatMap] at hs
      obtain ⟨sh, _, day, _, hmem⟩ := hs
      exact (genSlotsFrom_mem cfg.id day false sh.stop _ _ _ s hmem).1
    · simp [if_neg h2] at hs

/-- Break flag and duration of any slot of `generated_slots`, phrased through
the mode string: single-shift slots use the lunch-break rule, every other mode
only the slot-3 break. -/
lemma generated_slots_mem (cfg : AcademicConfig) (s : SlotRow)
    (hs : s ∈ generated_slots cfg) :
    s.is_break = slot_is_break (decide (cfg.shift_mode = "single"))
        s.slot_number ∧
    s.end_time = s.start_time +
      slot_duration (decide (cfg.shift_mode = "single")) s.slot_number := by
  unfold generated_slots at hs
  by_cases h1 : cfg.shift_mode = "single"
  · simp only [if_pos h1] at hs
    cases hts : cfg.shift_timings with
    | nil => rw [hts] at hs; simp at hs
    | cons sh rest =>
      rw [hts] at hs
      simp only [List.mem_flatMap] at hs
      obtain ⟨day, _, hmem⟩ := hs
      have hm := genSlotsFrom_mem cfg.id day true sh.stop _ _ _ s hmem
      have hb : decide (cfg.shift_mode = "single") = true := by simp [h1]
      rw [hb]
      exact ⟨hm.2.2.1, hm.2.2.2.1⟩
  · simp only [if_neg h1] at hs
    by_cases h2 : cfg.shift_mode = "multi"
    · simp only [if_pos h2, List.mem_flatMap] at hs
      obtain ⟨sh, _, day, _, hmem⟩ := hs
      have hm := genSlotsFrom_mem cfg.id day false sh.stop _ _ _ s hmem
      have hb : decide (cfg.shift_mode = "single") = false := by
        simp [h1]
      rw [hb]
      exact ⟨hm.2.2.1, hm.2.2.2.1⟩
    · simp [if_neg h2] at hs

/-- C6: calendar generation is idempotent — running `generate_time_slots`
on the table it just produced returns the identical success flag, message,
slot count and table, because all slots of the configuration are deleted
before regeneration. -/
theorem C6_generate_time_slots_idempotent (configs : List AcademicConfig)
    (config_id : Nat) (db : List SlotRow) :
    generate_time_slots configs config_id
      (generate_time_slots configs config_id db).db =
    generate_time_slots configs config_id db := by
  unfold generate_time_slots
  cases hfind : configs.find? (fun c => c.id = config_id) with
  | none => simp
  | some cfg =>
    have hcid : cfg.id = config_id := by
      have := List.find?_some hfind
      simpa using this
    by_cases herr : cfg.shift_mode = "single" ∧ cfg.shift_timings = []
    · simp [herr]
    · simp only [if_neg herr]
      have hfilter :
          (db.filter (fun r => r.config_id ≠ config_id) ++
              generated_slots cfg).filter (fun r => r.config_id ≠ config_id) =
            db.filter (fun r => r.config_id ≠ config_id) := by
        rw [List.filter_append]
        have h1 : (db.filter (fun r => r.config_id ≠ config_id)).filter
            (fun r => r.config_id ≠ config_id) =
            db.filter (fun r => r.config_id ≠ config_id) := by
          apply List.filter_eq_self.mpr
          intro a ha
          exact (List.mem_filter.mp ha).2
        have h2 : (generated_slots cfg).filter
            (fun r => r.config_id ≠ config_id) = [] := by
          apply List.filter_eq_nil_iff.mpr
          intro a ha
          have := generated_slots_config_id cfg a ha
          simp [this, hcid]
        rw [h1, h2, List.append_nil]
      rw [hfilter]

/-- C4: in every generated calendar, slot 3 of a (shift, day) sequence is a
15-minute break; in single-shift mode slot 5 is additionally a 45-minute
break; in multi-shift mode slot 5 is not a break; and no slot other than
these is marked as a break. -/
theorem C4_break_positions (configs : List AcademicConfig) (config_id : Nat)
    (db : List SlotRow) (cfg : AcademicConfig) (row : SlotRow)
    (hfind : configs.find? (fun c => c.id = config_id) = some cfg)
    (hok : (generate_time_slots configs config_id db).success = true)
    (hrow : row ∈ (generate_time_slots configs config_id db).db)
    (hcid : row.config_id = config_id) :
    (row.slot_number = 3 → row.is_break = true ∧
        row.end_time = row.start_time + 15) ∧
    (cfg.shift_mode = "single" → row.slot_number = 5 → row.is_break = true ∧
        row.end_time = row.start_time + 45) ∧
    (cfg.shift_mode = "multi" → row.slot_number = 5 → row.is_break = false) ∧
    (row.is_break = true → row.slot_number = 3 ∨
        (cfg.shift_mode = "single" ∧ row.slot_number = 5)) := by
  unfold generate_time_slots at hok hrow
  rw [hfind] at hok hrow
  by_cases herr : cfg.shift_mode = "single" ∧ cfg.shift_timings = []
  · simp [herr] at hok
  · simp only [if_neg herr, List.mem_append] at hrow
    rcases hrow with hrow | hrow
    · have := List.of_mem_filter hrow
      simp [hcid] at this
    · obtain ⟨hbreak, hdur⟩ := generated_slots_mem cfg row hrow
      refine ⟨?_, ?_, ?_, ?_⟩
      · intro h3
        rw [h3] at hbreak hdur
        refine ⟨by simpa [slot_is_break] using hbreak, ?_⟩
        rw [hdur]
        simp [slot_duration]
      · intro hmode h5
        rw [h5] at hbreak hdur
        rw [hmode] at hbreak hdur
        have hd1 : decide (("single" : String) = "single") = true := by decide
        rw [hd1] at hbreak hdur
        refine ⟨by simpa [slot_is_break] using hbreak, ?_⟩
        rw [hdur]
        simp [slot_duration]
      · intro hmode h5
        have hb : decide (cfg.shift_mode = "single") = false := by
          rw [hmode]; decide
        rw [h5, hb] at hbreak
        simpa [slot_is_break] using hbreak
      · intro hb
        rw [hb] at hbreak
        have := hbreak.symm
        unfold slot_is_break at this
        rcases Bool.or_eq_true_iff.mp this with h | h
        · left; exact of_decide_eq_true h
        · rcases Bool.and_eq_true_iff.mp h with ⟨hs, hn⟩
          right
          exact ⟨of_decide_eq_true hs, of_decide_eq_true hn⟩

/-- C5: for every (shift, working-day) pair, the generated slots are numbered
consecutively from 1, the first starts at the shift start, each starts where
the previous one ended, every non-break slot lasts exactly 60 minutes, no
slot ends past the shift end, and generation stops only when the next slot
would end strictly past the shift end (so a slot ending exactly at the shift
end is kept). -/
theorem C5_shift_day_slot_layout (cid : Nat) (day : String) (single : Bool)
    (startT endT : Nat) :
    (genShiftDay cid day single startT endT).map (·.slot_number) =
      List.range' 1 (genShiftDay cid day single startT endT).length ∧
    (∀ s, (genShiftDay cid day single startT endT).head? = some s →
      s.start_time = startT) ∧
    List.Chain' (fun a b => b.start_time = a.end_time)
      (genShiftDay cid day single startT endT) ∧
    (∀ s ∈ genShiftDay cid day single startT endT, s.is_break = false →
      s.end_time = s.start_time + 60) ∧
    (∀ s ∈ genShiftDay cid day single startT endT, s.end_time ≤ endT) ∧
    ¬(last_end startT (genShiftDay cid day single startT endT) < endT ∧
      last_end startT (genShiftDay cid day single startT endT) +
        slot_duration single
          (1 + (genShiftDay cid day single startT endT).length) ≤ endT) := by
  unfold genShiftDay
  refine ⟨genSlotsFrom_map_slot_number cid day single endT _ _ _,
    (genSlotsFrom_chain cid day single endT _ _ _).1,
    (genSlotsFrom_chain cid day single endT _ _ _).2, ?_, ?_, ?_⟩
  · intro s hs hnb
    have hm := genSlotsFrom_mem cid day single endT _ _ _ s hs
    rw [hm.2.2.2.1, slot_duration_of_not_break single s.slot_number
      (by rw [← hm.2.2.1]; exact hnb)]
  · intro s hs
    exact (genSlotsFrom_mem cid day single endT _ _ _ s hs).2.2.2.2
  · exact genSlotsFrom_maximal cid day single endT _ _ _ (by omega)

/-- Witness for C6 at a concrete configuration. -/
theorem C6_witness :
    generate_time_slots [⟨1, "Mon-Fri", "single", [⟨540, 720⟩]⟩] 1
      (generate_time_slots [⟨1, "Mon-Fri", "single", [⟨540, 720⟩]⟩] 1 []).db =
    generate_time_slots [⟨1, "Mon-Fri", "single", [⟨540, 720⟩]⟩] 1 [] :=
  C6_generate_time_slots_idempotent [⟨1, "Mon-Fri", "single", [⟨540, 720⟩]⟩]
    1 []

/-- Witness for C4: the 09:00–12:00 single-shift calendar contains the
Monday break slot 3 (11:00–11:15), and the theorem's hypotheses hold for it
concretely. -/
theorem C4_witness :
    (generate_time_slots [⟨1, "Mon-Fri", "single", [⟨540, 720⟩]⟩] 1
        []).success = true ∧
    (⟨1, "Monday", 3, 660, 675, true⟩ : SlotRow) ∈
      (generate_time_slots [⟨1, "Mon-Fri", "single", [⟨540, 720⟩]⟩] 1 []).db ∧
    ((3 : Nat) = 3 → (true : Bool) = true ∧ (675 : Nat) = 660 + 15) ∧
    ("single" = "single" → (3 : Nat) = 5 → (true : Bool) = true ∧
      (675 : Nat) = 660 + 45) ∧
    ("single" = "multi" → (3 : Nat) = 5 → (true : Bool) = false) ∧
    ((true : Bool) = true → (3 : Nat) = 3 ∨ ("single" = "single" ∧
      (3 : Nat) = 5)) := by
  refine ⟨by decide, by decide, ?_⟩
  exact C4_break_positions [⟨1, "Mon-Fri", "single", [⟨540, 720⟩]⟩] 1 []
    ⟨1, "Mon-Fri", "single", [⟨540, 720⟩]⟩ ⟨1, "Monday", 3, 660, 675, true⟩
    (by decide) (by decide) (by decide) (by decide)

/-- Witness for C5 at a concrete 09:00–12:00 single shift on Monday. -/
theorem C5_witness :
    (genShiftDay 1 "Monday" true 540 720).map (·.slot_number) =
      List.range' 1 (genShiftDay 1 "Monday" true 540 720).length ∧
    (∀ s, (genShiftDay 1 "Monday" true 540 720).head? = some s →
      s.start_time = 540) ∧
    List.Chain' (fun a b => b.start_time = a.end_time)
      (genShiftDay 1 "Monday" true 540 720) ∧
    (∀ s ∈ genShiftDay 1 "Monday" true 540 720, s.is_break = false →
      s.end_time = s.start_time + 60) ∧
    (∀ s ∈ genShiftDay 1 "Monday" true 540 720, s.end_time ≤ 720) ∧
    ¬(last_end 540 (genShiftDay 1 "Monday" true 540 720) < 720 ∧
      last_end 540 (genShiftDay 1 "Monday" true 540 720) +
        slot_duration true
          (1 + (genShiftDay 1 "Monday" true 540 720).length) ≤ 720) :=
  C5_shift_day_slot_layout 1 "Monday" true 540 720

/-- Unfolding of `is_faculty_available` once the faculty lookup succeeds. -/
lemma is_faculty_available_eq (st : SchedState) (faculty_id : Nat)
    (slot : Slot) (fac : Faculty)
    (hfind : st.faculty.find? (fun f => f.id = faculty_id) = some fac) :
    is_faculty_available st faculty_id slot =
      if slot.day ∉ _parse_availability fac.availability then
        (false, "Faculty not available on " ++ slot.day)
      else if faculty_time_conflict st faculty_id slot = true then
        (false, "Faculty already scheduled at this time")
      else if load_get faculty_id st.faculty_load ≥ fac.max_hours_per_week
          then
        (false, "Faculty weekly hour limit reached")
      else if ¬ (_check_consecutive_hours st faculty_id slot = true) then
        (false, "Exceeds " ++ toString st.max_consecutive_hours ++
          " consecutive hours limit")
      else (true, "Available") := by
  unfold is_faculty_available
  rw [hfind]

/-- C9: an availability string containing a dash is split into its two parts
only — the endpoints, not the days between them; concretely `Mon-Fri` parses
to exactly Monday and Friday, so `is_faculty_available` rejects a `Mon-Fri`
faculty for any Tuesday, Wednesday or Thursday slot. -/
theorem C9_dash_availability_endpoints_only (s a b : String)
    (hsplit : py_split s '-' = [a, b])
    (hdash : py_contains_char s '-' = true) :
    _parse_availability s =
      [day_map_get (py_strip a), day_map_get (py_strip b)] ∧
    _parse_availability "Mon-Fri" = ["Monday", "Friday"] ∧
    (∀ (st : SchedState) (faculty_id : Nat) (fac : Faculty) (slot : Slot),
      st.faculty.find? (fun f => f.id = faculty_id) = some fac →
      fac.availability = "Mon-Fri" →
      (slot.day = "Tuesday" ∨ slot.day = "Wednesday" ∨
        slot.day = "Thursday") →
      (is_faculty_available st faculty_id slot).1 = false) := by
  refine ⟨?_, by decide, ?_⟩
  · simp [_parse_availability, hdash, hsplit]
  · intro st faculty_id fac slot hfind havail hday
    have hparse : _parse_availability fac.availability =
        ["Monday", "Friday"] := by
      rw [havail]; decide
    have hnot : slot.day ∉ _parse_availability fac.availability := by
      rw [hparse]
      rcases hday with h | h | h <;> rw [h] <;> decide
    rw [is_faculty_available_eq st faculty_id slot fac hfind, if_pos hnot]

/-- Witness for C9 at the concrete string `Mon-Fri`. -/
theorem C9_witness :
    py_split "Mon-Fri" '-' = ["Mon", "Fri"] ∧
    py_contains_char "Mon-Fri" '-' = true ∧
    (_parse_availability "Mon-Fri" =
        [day_map_get (py_strip "Mon"), day_map_get (py_strip "Fri")] ∧
      _parse_availability "Mon-Fri" = ["Monday", "Friday"] ∧
      (∀ (st : SchedState) (faculty_id : Nat) (fac : Faculty) (slot : Slot),
        st.faculty.find? (fun f => f.id = faculty_id) = some fac →
        fac.availability = "Mon-Fri" →
        (slot.day = "Tuesday" ∨ slot.day = "Wednesday" ∨
          slot.day = "Thursday") →
        (is_faculty_available st faculty_id slot).1 = false)) :=
  ⟨by decide, by decide,
    C9_dash_availability_endpoints_only "Mon-Fri" "Mon" "Fri" (by decide)
      (by decide)⟩

lemma insert_sorted_ne_nil (x : Nat) (l : List Nat) :
    insert_sorted x l ≠ [] := by
  cases l with
  | nil => simp [insert_sorted]
  | cons y ys =>
    unfold insert_sorted
    split <;> simp

lemma py_sort_ne_nil (l : List Nat) (h : l ≠ []) : py_sort l ≠ [] := by
  cases l with
  | nil => exact absurd rfl h
  | cons x xs => exact insert_sorted_ne_nil x (py_sort xs)

lemma max_run_aux_ge (xs : List Nat) :
    ∀ prev run, run ≤ max_run_aux prev run xs := by
  induction xs with
  | nil => intro prev run; simp [max_run_aux]
  | cons x xs ih =>
    intro prev run
    unfold max_run_aux
    split
    · exact le_trans (Nat.le_succ run) (ih x (run + 1))
    · exact le_max_left _ _

/-- The imperative consecutive-run check of the source equals the bound on
the spec's longest contiguous run, for a positive threshold. -/
lemma check_run_aux_iff (maxC : Nat) (h1 : 1 ≤ maxC) (xs : List Nat) :
    ∀ prev run, run ≤ maxC →
      (check_run_aux maxC prev run xs = true ↔
        max_run_aux prev run xs ≤ maxC) := by
  induction xs with
  | nil => intro prev run h; simp [check_run_aux, max_run_aux, h]
  | cons x xs ih =>
    intro prev run h
    unfold check_run_aux max_run_aux
    by_cases hx : x = prev + 1
    · rw [if_pos hx, if_pos hx]
      by_cases hover : run + 1 > maxC
      · rw [if_pos hover]
        simp only [Bool.false_eq_true, false_iff]
        intro hle
        have := max_run_aux_ge xs x (run + 1)
        omega
      · rw [if_neg hover]
        exact ih x (run + 1) (by omega)
    · rw [if_neg hx, if_neg hx]
      rw [ih x 1 h1]
      rw [max_le_iff]
      constructor
      · intro ha; exact ⟨h, ha⟩
      · intro ha; exact ha.2

/-- `_check_consecutive_hours` accepts exactly when the longest contiguous
run of the sorted slot numbers (candidate included) stays within the
threshold. -/
lemma check_consecutive_iff (st : SchedState) (faculty_id : Nat) (slot : Slot)
    (hmax : 1 ≤ st.max_consecutive_hours) :
    (_check_consecutive_hours st faculty_id slot = true ↔
      max_run (py_sort (faculty_day_slot_numbers st faculty_id slot.day ++
        [slot.slot_number])) ≤ st.max_consecutive_hours) := by
  unfold _check_consecutive_hours
  cases hsort : py_sort (faculty_day_slot_numbers st faculty_id slot.day ++
      [slot.slot_number]) with
  | nil => simp [max_run, hsort]
  | cons x xs =>
    simp only [max_run]
    exact check_run_aux_iff st.max_consecutive_hours hmax xs x 1 hmax

/-- The booked-at-same-time scan as an existential over the schedule. -/
lemma faculty_time_conflict_iff (st : SchedState) (faculty_id : Nat)
    (slot : Slot) :
    (faculty_time_conflict st faculty_id slot = true ↔
      ∃ p ∈ st.schedule, p.2.faculty_id = faculty_id ∧ ∃ s,
        find_slot st p.1 = some s ∧ s.day = slot.day ∧
        s.start_time = slot.start_time) := by
  unfold faculty_time_conflict
  rw [List.any_eq_true]
  constructor
  · rintro ⟨p, hp, hpred⟩
    rw [Bool.and_eq_true] at hpred
    obtain ⟨hfac, hmatch⟩ := hpred
    refine ⟨p, hp, of_decide_eq_true hfac, ?_⟩
    cases hfs : find_slot st p.1 with
    | none => rw [hfs] at hmatch; simp at hmatch
    | some s =>
      rw [hfs] at hmatch
      exact ⟨s, rfl, (of_decide_eq_true hmatch).1,
        (of_decide_eq_true hmatch).2⟩
  · rintro ⟨p, hp, hfac, s, hfs, hday, htime⟩
    refine ⟨p, hp, ?_⟩
    rw [Bool.and_eq_true]
    constructor
    · exact decide_eq_true hfac
    · rw [hfs]
      exact decide_eq_true ⟨hday, htime⟩

/-- C3: `is_faculty_available` returns true exactly when the faculty's day
set contains the slot's day, no existing assignment of the faculty shares the
slot's (day, start-time), the assigned-hour count is strictly below the
weekly cap, and adding the slot keeps every contiguous slot-number run within
the consecutive-hours threshold; on failure the reason names the first
failing check in that order.  The embedding is a pure function of the state,
so the call mutates nothing. -/
theorem C3_is_faculty_available_correct (st : SchedState) (faculty_id : Nat)
    (slot : Slot) (fac : Faculty)
    (hfind : st.faculty.find? (fun f => f.id = faculty_id) = some fac)
    (hmax : 1 ≤ st.max_consecutive_hours) :
    ((is_faculty_available st faculty_id slot).1 = true ↔
      (slot.day ∈ _parse_availability fac.availability ∧
        ¬ (∃ p ∈ st.schedule, p.2.faculty_id = faculty_id ∧ ∃ s,
            find_slot st p.1 = some s ∧ s.day = slot.day ∧
            s.start_time = slot.start_time) ∧
        load_get faculty_id st.faculty_load < fac.max_hours_per_week ∧
        max_run (py_sort (faculty_day_slot_numbers st faculty_id slot.day ++
          [slot.slot_number])) ≤ st.max_consecutive_hours)) ∧
    (slot.day ∉ _parse_availability fac.availability →
      (is_faculty_available st faculty_id slot).2 =
        "Faculty not available on " ++ slot.day) ∧
    (slot.day ∈ _parse_availability fac.availability →
      (∃ p ∈ st.schedule, p.2.faculty_id = faculty_id ∧ ∃ s,
          find_slot st p.1 = some s ∧ s.day = slot.day ∧
          s.start_time = slot.start_time) →
      (is_faculty_available st faculty_id slot).2 =
        "Faculty already scheduled at this time") ∧
    (slot.day ∈ _parse_availability fac.availability →
      ¬ (∃ p ∈ st.schedule, p.2.faculty_id = faculty_id ∧ ∃ s,
          find_slot st p.1 = some s ∧ s.day = slot.day ∧
          s.start_time = slot.start_time) →
      fac.max_hours_per_week ≤ load_get faculty_id st.faculty_load →
      (is_faculty_available st faculty_id slot).2 =
        "Faculty weekly hour limit reached") ∧
    (slot.day ∈ _parse_availability fac.availability →
      ¬ (∃ p ∈ st.schedule, p.2.faculty_id = faculty_id ∧ ∃ s,
          find_slot st p.1 = some s ∧ s.day = slot.day ∧
          s.start_time = slot.start_time) →
      load_get faculty_id st.faculty_load < fac.max_hours_per_week →
      st.max_consecutive_hours <
        max_run (py_sort (faculty_day_slot_numbers st faculty_id slot.day ++
          [slot.slot_number])) →
      (is_faculty_available st faculty_id slot).2 =
        "Exceeds " ++ toString st.max_consecutive_hours ++
          " consecutive hours limit") := by
  have hconf := faculty_time_conflict_iff st faculty_id slot
  have hcons := check_consecutive_iff st faculty_id slot hmax
  rw [is_faculty_available_eq st faculty_id slot fac hfind]
  by_cases h1 : slot.day ∈ _parse_availability fac.availability
  · rw [if_neg (not_not_intro h1)]
    by_cases h2 : ∃ p ∈ st.schedule, p.2.faculty_id = faculty_id ∧ ∃ s,
        find_slot st p.1 = some s ∧ s.day = slot.day ∧
        s.start_time = slot.start_time
    · rw [if_pos (hconf.mpr h2)]
      refine ⟨?_, ?_, ?_, ?_, ?_⟩
      · simp only [Bool.false_eq_true, false_iff]
        intro hc
        exact hc.2.1 h2
      · intro hc; exact absurd h1 hc
      · intro _ _; rfl
      · intro _ hc; exact absurd h2 hc
      · intro _ hc _; exact absurd h2 hc
    · have hc2 : ¬ (faculty_time_conflict st faculty_id slot = true) :=
        fun h => h2 (hconf.mp h)
      rw [if_neg hc2]
      by_cases h3 : load_get faculty_id st.faculty_load <
          fac.max_hours_per_week
      · rw [if_neg (by omega)]
        by_cases h4 : max_run (py_sort
            (faculty_day_slot_numbers st faculty_id slot.day ++
              [slot.slot_number])) ≤ st.max_consecutive_hours
        · rw [if_neg (not_not_intro (hcons.mpr h4))]
          refine ⟨?_, ?_, ?_, ?_, ?_⟩
          · simp only [true_iff]
            exact ⟨h1, h2, h3, h4⟩
          · intro hc; exact absurd h1 hc
          · intro _ hc; exact absurd hc h2
          · intro _ _ hc; omega
          · intro _ _ _ hc; omega
        · rw [if_pos (fun hch => h4 (hcons.mp hch))]
          refine ⟨?_, ?_, ?_, ?_, ?_⟩
          · simp only [Bool.false_eq_true, false_iff]
            intro hc
            exact h4 hc.2.2.2
          · intro hc; exact absurd h1 hc
          · intro _ hc; exact absurd hc h2
          · intro _ _ hc; omega
          · intro _ _ _ _; rfl
      · rw [if_pos (by omega)]
        refine ⟨?_, ?_, ?_, ?_, ?_⟩
        · simp only [Bool.false_eq_true, false_iff]
          intro hc
          exact absurd hc.2.2.1 h3
        · intro hc; exact absurd h1 hc
        · intro _ hc; exact absurd hc h2
        · intro _ _ _; rfl
        · intro _ _ hc; omega
  · rw [if_pos h1]
    refine ⟨?_, ?_, ?_, ?_, ?_⟩
    · simp only [Bool.false_eq_true, false_iff]
      intro hc
      exact h1 hc.1
    · intro _; rfl
    · intro hc; exact absurd hc h1
    · intro hc; exact absurd hc h1
    · intro hc; exact absurd hc h1

/-- Witness for C3 at a concrete one-faculty state and Monday slot. -/
theorem C3_witness :
    (SchedState.faculty ⟨[], [⟨1, "Mon,Tue", 24⟩], [], [], [], [(1, 0)], [],
        3, [], []⟩).find? (fun f => f.id = 1) = some ⟨1, "Mon,Tue", 24⟩ ∧
    1 ≤ (SchedState.max_consecutive_hours ⟨[], [⟨1, "Mon,Tue", 24⟩], [], [],
        [], [(1, 0)], [], 3, [], []⟩) ∧
    ((is_faculty_available ⟨[], [⟨1, "Mon,Tue", 24⟩], [], [], [], [(1, 0)],
        [], 3, [], []⟩ 1 ⟨101, "Monday", 1, 540, 600⟩).1 = true ↔
      (("Monday" : String) ∈ _parse_availability "Mon,Tue" ∧
        ¬ (∃ p ∈ ([] : List (Nat × Assignment)), p.2.faculty_id = 1 ∧ ∃ s,
            find_slot ⟨[], [⟨1, "Mon,Tue", 24⟩], [], [], [], [(1, 0)], [], 3,
              [], []⟩ p.1 = some s ∧ s.day = "Monday" ∧
            s.start_time = 540) ∧
        load_get 1 [(1, 0)] < 24 ∧
        max_run (py_sort (faculty_day_slot_numbers ⟨[], [⟨1, "Mon,Tue", 24⟩],
          [], [], [], [(1, 0)], [], 3, [], []⟩ 1 "Monday" ++ [1])) ≤ 3)) := by
  have h := C3_is_faculty_available_correct
    ⟨[], [⟨1, "Mon,Tue", 24⟩], [], [], [], [(1, 0)], [], 3, [], []⟩ 1
    ⟨101, "Monday", 1, 540, 600⟩ ⟨1, "Mon,Tue", 24⟩ (by decide) (by decide)
  exact ⟨by decide, by decide, h.1⟩

/-- Membership in the result of the room-removal loop: a room survives
exactly when it was in the input list and is unoccupied at the candidate's
(day, start-time) according to the scanned assignment list. -/
lemma mem_remove_occupied (st : SchedState) (slot : Slot) :
    ∀ (RA : List (Nat × Nat)) (rooms : List Location) (r : Location),
      r ∈ remove_occupied st slot rooms RA ↔
        r ∈ rooms ∧ occupied_in st slot RA r.id = false := by
  intro RA
  induction RA with
  | nil =>
    intro rooms r
    simp [remove_occupied, occupied_in]
  | cons p rest ih =>
    intro rooms r
    obtain ⟨sid, rid⟩ := p
    unfold remove_occupied
    cases hfs : find_slot st sid with
    | none =>
      simp only [hfs]
      rw [ih]
      simp [occupied_in, hfs]
    | some s2 =>
      simp only [hfs]
      by_cases hday : s2.day = slot.day
      · by_cases htime : s2.start_time = slot.start_time
        · rw [if_pos hday, if_pos htime, ih, List.mem_filter]
          simp only [occupied_in, List.any_cons, hfs, hday, htime,
            Bool.or_eq_false_iff, Bool.and_eq_false_iff,
            decide_eq_false_iff_not]
          constructor
          · rintro ⟨⟨hmem, hne⟩, hocc⟩
            refine ⟨hmem, ?_, hocc⟩
            left
            intro he
            exact (of_decide_eq_true hne) he.symm
          · rintro ⟨hmem, hhead, hocc⟩
            refine ⟨⟨hmem, ?_⟩, hocc⟩
            rcases hhead with hne | hfalse
            · exact decide_eq_true (fun he => hne he.symm)
            · simp at hfalse
        · rw [if_pos hday, if_neg htime, ih]
          simp [occupied_in, hfs, htime]
      · rw [if_neg hday, ih]
        simp [occupied_in, hfs, hday]

lemma py_min_by_mem (key : Location → Nat) :
    ∀ (l : List Location) (best : Location),
      py_min_by key best l ∈ best :: l := by
  intro l
  induction l with
  | nil => intro best; simp [py_min_by]
  | cons r rest ih =>
    intro best
    unfold py_min_by
    split
    · rcases List.mem_cons.mp (ih r) with h | h
      · rw [h]; simp
      · exact List.mem_cons_of_mem _ (List.mem_cons_of_mem _ h)
    · rcases List.mem_cons.mp (ih best) with h | h
      · rw [h]; simp
      · exact List.mem_cons_of_mem _ (List.mem_cons_of_mem _ h)

lemma py_min_by_le (key : Location → Nat) :
    ∀ (l : List Location) (best y : Location), y ∈ best :: l →
      key (py_min_by key best l) ≤ key y := by
  intro l
  induction l with
  | nil =>
    intro best y hy
    simp only [List.mem_singleton] at hy
    rw [hy]
    simp [py_min_by]
  | cons r rest ih =>
    intro best y hy
    unfold py_min_by
    by_cases hlt : key r < key best
    · rw [if_pos hlt]
      rcases List.mem_cons.mp hy with h | h
      · have h1 := ih r r (List.mem_cons_self r rest)
        rw [h]
        omega
      · exact ih r y h
    · rw [if_neg hlt]
      rcases List.mem_cons.mp hy with h | h
      · rw [h]
        exact ih best best (List.mem_cons_self best rest)
      · rcases List.mem_cons.mp h with h2 | h2
        · have h1 := ih best best (List.mem_cons_self best rest)
          rw [h2]
          omega
        · exact ih best y (List.mem_cons_of_mem best h2)

/-- The occupancy scan over the state's own room map, as the spec's
proposition. -/
lemma occupied_in_iff (st : SchedState) (slot : Slot) (room_id : Nat) :
    occupied_in st slot st.room_assignments room_id = true ↔
      occupied_at st slot room_id := by
  unfold occupied_in occupied_at
  rw [List.any_eq_true]
  constructor
  · rintro ⟨p, hp, hpred⟩
    rw [Bool.and_eq_true] at hpred
    obtain ⟨hrid, hmatch⟩ := hpred
    refine ⟨p, hp, of_decide_eq_true hrid, ?_⟩
    cases hfs : find_slot st p.1 with
    | none => rw [hfs] at hmatch; simp at hmatch
    | some s2 =>
      rw [hfs] at hmatch
      exact ⟨s2, rfl, (of_decide_eq_true hmatch).1,
        (of_decide_eq_true hmatch).2⟩
  · rintro ⟨p, hp, hrid, s2, hfs, hday, htime⟩
    refine ⟨p, hp, ?_⟩
    rw [Bool.and_eq_true]
    refine ⟨decide_eq_true hrid, ?_⟩
    rw [hfs]
    exact decide_eq_true ⟨hday, htime⟩

/-- Unfolding of `assign_room` once the slot lookup succeeds. -/
lemma assign_room_eq (st : SchedState) (slot_id : Nat) (slot_type : String)
    (slot : Slot) (hfind : find_slot st slot_id = some slot) :
    assign_room st slot_id slot_type =
      (match remove_occupied st slot
          (st.locations.filter (fun loc =>
            loc.room_type =
              (if slot_type = "lab" then "Lab" else "Classroom") ∧
            loc.capacity ≥ (if slot_type = "lab" then 30 else 50)))
          st.room_assignments with
      | [] =>
        ({ st with warnings := st.warnings ++
            ["No suitable room found for slot " ++ toString slot_id] }, none)
      | r :: rest =>
        ({ st with room_assignments := (dict_set slot_id
            (py_min_by (fun r2 => Nat.dist r2.capacity
              (if slot_type = "lab" then 30 else 50)) r rest).id
            st.room_assignments) },
          some (py_min_by (fun r2 => Nat.dist r2.capacity
            (if slot_type = "lab" then 30 else 50)) r rest).id)) := by
  unfold assign_room
  rw [hfind]

/-- C8: `assign_room` considers exactly the rooms of the type matching the
slot type (lab needs a `Lab` room of capacity at least 30, anything else a
`Classroom` of capacity at least 50) that are not occupied at the slot's
(day, start-time); among them it picks one whose capacity is closest to the
minimum requirement and records it in the room map; when none remains it
assigns no room, appends a warning, and the schedule and faculty loads are
untouched in either case. -/
theorem C8_assign_room_spec (st : SchedState) (slot_id : Nat)
    (slot_type : String) (slot : Slot)
    (hfind : find_slot st slot_id = some slot) :
    (∀ rid, (assign_room st slot_id slot_type).2 = some rid →
      (∃ room ∈ st.locations, room.id = rid ∧
        room.room_type = (if slot_type = "lab" then "Lab" else "Classroom") ∧
        (if slot_type = "lab" then (30 : Nat) else 50) ≤ room.capacity ∧
        ¬ occupied_at st slot room.id ∧
        (∀ r ∈ st.locations,
          r.room_type = (if slot_type = "lab" then "Lab" else "Classroom") →
          (if slot_type = "lab" then (30 : Nat) else 50) ≤ r.capacity →
          ¬ occupied_at st slot r.id →
          Nat.dist room.capacity
              (if slot_type = "lab" then (30 : Nat) else 50) ≤
            Nat.dist r.capacity
              (if slot_type = "lab" then (30 : Nat) else 50))) ∧
      (assign_room st slot_id slot_type).1.room_assignments =
        dict_set slot_id rid st.room_assignments ∧
      (assign_room st slot_id slot_type).1.schedule = st.schedule ∧
      (assign_room st slot_id slot_type).1.faculty_load = st.faculty_load ∧
      (assign_room st slot_id slot_type).1.warnings = st.warnings) ∧
    ((assign_room st slot_id slot_type).2 = none →
      (∀ r ∈ st.locations,
        r.room_type = (if slot_type = "lab" then "Lab" else "Classroom") →
        (if slot_type = "lab" then (30 : Nat) else 50) ≤ r.capacity →
        occupied_at st slot r.id) ∧
      (assign_room st slot_id slot_type).1.warnings =
        st.warnings ++ ["No suitable room found for slot " ++
          toString slot_id] ∧
      (assign_room st slot_id slot_type).1.schedule = st.schedule ∧
      (assign_room st slot_id slot_type).1.faculty_load = st.faculty_load ∧
      (assign_room st slot_id slot_type).1.room_assignments =
        st.room_assignments) := by
  rw [assign_room_eq st slot_id slot_type slot hfind]
  cases havail : remove_occupied st slot
      (st.locations.filter (fun loc =>
        loc.room_type = (if slot_type = "lab" then "Lab" else "Classroom") ∧
        loc.capacity ≥ (if slot_type = "lab" then 30 else 50)))
      st.room_assignments with
  | nil =>
    refine ⟨?_, ?_⟩
    · intro rid hrid
      exact Option.noConfusion hrid
    · intro _
      refine ⟨?_, rfl, rfl, rfl, rfl⟩
      intro r hr htype hcap
      by_contra hocc
      have hoccb : occupied_in st slot st.room_assignments r.id = false := by
        rw [← Bool.not_eq_true, occupied_in_iff]
        exact hocc
      have hmem : r ∈ remove_occupied st slot
          (st.locations.filter (fun loc =>
            loc.room_type =
              (if slot_type = "lab" then "Lab" else "Classroom") ∧
            loc.capacity ≥ (if slot_type = "lab" then 30 else 50)))
          st.room_assignments := by
        rw [mem_remove_occupied]
        refine ⟨List.mem_filter.mpr ⟨hr, ?_⟩, hoccb⟩
        exact decide_eq_true ⟨htype, hcap⟩
      rw [havail] at hmem
      simp at hmem
  | cons r0 rest =>
    refine ⟨?_, ?_⟩
    · intro rid hrid
      have hrid2 : (py_min_by (fun r2 => Nat.dist r2.capacity
          (if slot_type = "lab" then 30 else 50)) r0 rest).id = rid :=
        Option.some.inj hrid
      subst hrid2
      have hbestmem : py_min_by (fun r2 => Nat.dist r2.capacity
          (if slot_type = "lab" then 30 else 50)) r0 rest ∈ r0 :: rest :=
        py_min_by_mem _ rest r0
      rw [← havail, mem_remove_occupied] at hbestmem
      obtain ⟨hmem, hocc⟩ := hbestmem
      have hmem2 := List.mem_filter.mp hmem
      have hprops := of_decide_eq_true hmem2.2
      refine ⟨?_, rfl, rfl, rfl, rfl⟩
      refine ⟨py_min_by (fun r2 => Nat.dist r2.capacity
          (if slot_type = "lab" then 30 else 50)) r0 rest, hmem2.1, rfl,
        hprops.1, hprops.2, ?_, ?_⟩
      · rw [← occupied_in_iff]
        simp [hocc]
      · intro r hr htype hcap hnocc
        have hoccb : occupied_in st slot st.room_assignments r.id = false := by
          rw [← Bool.not_eq_true, occupied_in_iff]
          exact hnocc
        have hrmem : r ∈ r0 :: rest := by
          rw [← havail, mem_remove_occupied]
          exact ⟨List.mem_filter.mpr ⟨hr, decide_eq_true ⟨htype, hcap⟩⟩,
            hoccb⟩
        exact py_min_by_le (fun r2 => Nat.dist r2.capacity
          (if slot_type = "lab" then 30 else 50)) rest r0 r hrmem
    · intro hno
      exact Option.noConfusion hno

/-- Witness for C8: one matching classroom, none occupied, gets picked. -/
theorem C8_witness :
    find_slot ⟨[], [], [⟨101, "Monday", 1, 540, 600⟩], [⟨7, "Classroom", 60⟩],
        [], [], [], 3, [], []⟩ 101 = some ⟨101, "Monday", 1, 540, 600⟩ ∧
    (∀ rid, (assign_room ⟨[], [], [⟨101, "Monday", 1, 540, 600⟩],
        [⟨7, "Classroom", 60⟩], [], [], [], 3, [], []⟩ 101 "lecture").2 =
        some rid →
      (∃ room ∈ [(⟨7, "Classroom", 60⟩ : Location)], room.id = rid ∧
        room.room_type = (if "lecture" = "lab" then "Lab" else "Classroom") ∧
        (if "lecture" = "lab" then (30 : Nat) else 50) ≤ room.capacity ∧
        ¬ occupied_at ⟨[], [], [⟨101, "Monday", 1, 540, 600⟩],
            [⟨7, "Classroom", 60⟩], [], [], [], 3, [], []⟩
          ⟨101, "Monday", 1, 540, 600⟩ room.id ∧
        (∀ r ∈ [(⟨7, "Classroom", 60⟩ : Location)],
          r.room_type = (if "lecture" = "lab" then "Lab" else "Classroom") →
          (if "lecture" = "lab" then (30 : Nat) else 50) ≤ r.capacity →
          ¬ occupied_at ⟨[], [], [⟨101, "Monday", 1, 540, 600⟩],
              [⟨7, "Classroom", 60⟩], [], [], [], 3, [], []⟩
            ⟨101, "Monday", 1, 540, 600⟩ r.id →
          Nat.dist room.capacity
              (if "lecture" = "lab" then (30 : Nat) else 50) ≤
            Nat.dist r.capacity
              (if "lecture" = "lab" then (30 : Nat) else 50))) ∧
      (assign_room ⟨[], [], [⟨101, "Monday", 1, 540, 600⟩],
          [⟨7, "Classroom", 60⟩], [], [], [], 3, [], []⟩ 101
          "lecture").1.room_assignments =
        dict_set 101 rid [] ∧
      (assign_room ⟨[], [], [⟨101, "Monday", 1, 540, 600⟩],
          [⟨7, "Classroom", 60⟩], [], [], [], 3, [], []⟩ 101
          "lecture").1.schedule = [] ∧
      (assign_room ⟨[], [], [⟨101, "Monday", 1, 540, 600⟩],
          [⟨7, "Classroom", 60⟩], [], [], [], 3, [], []⟩ 101
          "lecture").1.faculty_load = [] ∧
      (assign_room ⟨[], [], [⟨101, "Monday", 1, 540, 600⟩],
          [⟨7, "Classroom", 60⟩], [], [], [], 3, [], []⟩ 101
          "lecture").1.warnings = []) :=
  ⟨by decide,
    (C8_assign_room_spec ⟨[], [], [⟨101, "Monday", 1, 540, 600⟩],
      [⟨7, "Classroom", 60⟩], [], [], [], 3, [], []⟩ 101 "lecture"
      ⟨101, "Monday", 1, 540, 600⟩ (by decide)).1⟩

/-- C10: the overall optimization score is the fixed-weight sum
`0.4 · loadBalance + 0.3 · roomUtilization + 0.3 · density`, with load
balance `max 0 (1 − stddev/mean)` of the faculty loads (0 when the mean is
0), room utilization the room-assignment count over the slot count, and
density the schedule count over the slot count.  The hypothesis excludes the
unreachable shape "rooms assigned but no room exists", where the source
returns 0 utilization regardless.  The embedding is a pure function, so
computing the score alters no assignment. -/
theorem C10_optimization_score (st : SchedState)
    (hru : st.locations ≠ [] ∨ st.room_assignments = []) :
    (get_optimization_score st).overall_score =
      0.4 * (if mean_load st = 0 then 0
        else max 0 (1 - stddev_load st / mean_load st)) +
      0.3 * ((st.room_assignments.length : ℝ) /
        (st.available_slots.length : ℝ)) +
      0.3 * ((st.schedule.length : ℝ) / (st.available_slots.length : ℝ)) := by
  have hlb : _calculate_load_balance st =
      (if mean_load st = 0 then 0
        else max 0 (1 - stddev_load st / mean_load st)) := by
    unfold _calculate_load_balance mean_load stddev_load
    by_cases he : st.faculty_load.isEmpty
    · rw [if_pos he]
      have hnil : st.faculty_load = [] := by
        cases h : st.faculty_load with
        | nil => rfl
        | cons p rest => rw [h] at he; simp [List.isEmpty] at he
      rw [hnil]
      simp
    · rw [if_neg he]
      simp only [List.map_map, List.length_map]
      rfl
  have hruu : _calculate_room_utilization st =
      (st.room_assignments.length : ℝ) / (st.available_slots.length : ℝ) := by
    unfold _calculate_room_utilization
    by_cases hloc : st.locations.isEmpty
    · rw [if_pos hloc]
      have hnil : st.room_assignments = [] := by
        rcases hru with h | h
        · exfalso
          apply h
          cases hl : st.locations with
          | nil => rfl
          | cons p rest => rw [hl] at hloc; simp [List.isEmpty] at hloc
        · exact h
      rw [hnil]
      simp
    · rw [if_neg hloc]
      by_cases hn : 0 < st.available_slots.length
      · rw [if_pos hn]
      · rw [if_neg hn]
        have h0 : st.available_slots.length = 0 := by omega
        rw [h0]
        simp
  have hsd : _calculate_schedule_density st =
      (st.schedule.length : ℝ) / (st.available_slots.length : ℝ) := by
    unfold _calculate_schedule_density
    by_cases hn : 0 < st.available_slots.length
    · rw [if_pos hn]
    · rw [if_neg hn]
      have h0 : st.available_slots.length = 0 := by omega
      rw [h0]
      simp
  show _calculate_load_balance st * 0.4 + _calculate_room_utilization st * 0.3
      + _calculate_schedule_density st * 0.3 = _
  rw [hlb, hruu, hsd]
  ring

/-- Witness for C10 at a concrete state: two faculty with equal loads, one
classroom assigned on one of two slots. -/
theorem C10_witness :
    ((SchedState.locations ⟨[], [], [⟨101, "Monday", 1, 540, 600⟩,
        ⟨102, "Monday", 2, 600, 660⟩], [⟨7, "Classroom", 60⟩],
        [(101, ⟨11, 2, "lecture"⟩)], [(1, 2), (2, 2)], [(101, 7)], 3, [],
        []⟩) ≠ [] ∨
      (SchedState.room_assignments ⟨[], [], [⟨101, "Monday", 1, 540, 600⟩,
        ⟨102, "Monday", 2, 600, 660⟩], [⟨7, "Classroom", 60⟩],
        [(101, ⟨11, 2, "lecture"⟩)], [(1, 2), (2, 2)], [(101, 7)], 3, [],
        []⟩) = []) ∧
    (get_optimization_score ⟨[], [], [⟨101, "Monday", 1, 540, 600⟩,
        ⟨102, "Monday", 2, 600, 660⟩], [⟨7, "Classroom", 60⟩],
        [(101, ⟨11, 2, "lecture"⟩)], [(1, 2), (2, 2)], [(101, 7)], 3, [],
        []⟩).overall_score =
      0.4 * (if mean_load ⟨[], [], [⟨101, "Monday", 1, 540, 600⟩,
          ⟨102, "Monday", 2, 600, 660⟩], [⟨7, "Classroom", 60⟩],
          [(101, ⟨11, 2, "lecture"⟩)], [(1, 2), (2, 2)], [(101, 7)], 3, [],
          []⟩ = 0 then 0
        else max 0 (1 - stddev_load ⟨[], [], [⟨101, "Monday", 1, 540, 600⟩,
          ⟨102, "Monday", 2, 600, 660⟩], [⟨7, "Classroom", 60⟩],
          [(101, ⟨11, 2, "lecture"⟩)], [(1, 2), (2, 2)], [(101, 7)], 3, [],
          []⟩ / mean_load ⟨[], [], [⟨101, "Monday", 1, 540, 600⟩,
          ⟨102, "Monday", 2, 600, 660⟩], [⟨7, "Classroom", 60⟩],
          [(101, ⟨11, 2, "lecture"⟩)], [(1, 2), (2, 2)], [(101, 7)], 3, [],
          []⟩)) +
      0.3 * ((1 : ℝ) / (2 : ℝ)) + 0.3 * ((1 : ℝ) / (2 : ℝ)) := by
  constructor
  · left
    decide
  · have h := C10_optimization_score ⟨[], [], [⟨101, "Monday", 1, 540, 600⟩,
      ⟨102, "Monday", 2, 600, 660⟩], [⟨7, "Classroom", 60⟩],
      [(101, ⟨11, 2, "lecture"⟩)], [(1, 2), (2, 2)], [(101, 7)], 3, [],
      []⟩ (Or.inl (by decide))
    simpa using h

lemma insert_subject_desc_perm (x : Subject) (l : List Subject) :
    List.Perm (insert_subject_desc x l) (x :: l) := by
  induction l with
  | nil => simp [insert_subject_desc]
  | cons y ys ih =>
    unfold insert_subject_desc
    split
    · exact List.Perm.refl _
    · exact (List.Perm.cons y ih).trans (List.Perm.swap x y ys)

lemma sort_subjects_desc_perm (l : List Subject) :
    List.Perm (sort_subjects_desc l) l := by
  induction l with
  | nil => simp [sort_subjects_desc]
  | cons x xs ih =>
    exact (insert_subject_desc_perm x (sort_subjects_desc xs)).trans
      (List.Perm.cons x ih)

/-- Each entry of the details list carries the subject's name, code and
needed hour counts, one entry per scheduled subject in order. -/
lemma schedule_all_subjects_details :
    ∀ (subs : List Subject) (st : SchedState) (rng : List Nat),
      List.Forall₂ (fun (d : SubjectStats) (subj : Subject) =>
        d.subject_name = subj.subject_name ∧ d.code = subj.code ∧
        d.lectures_needed = subj.lecture_credits ∧
        d.labs_needed = subj.lab_credits)
      (schedule_all_subjects subs st rng).1 subs := by
  intro subs
  induction subs with
  | nil => intro st rng; exact List.Forall₂.nil
  | cons subj rest ih =>
    intro st rng
    exact List.Forall₂.cons ⟨rfl, rfl, rfl, rfl⟩ (ih _ _)

/-- C7: with no subject or no faculty loaded, `generate_schedule` returns
the failure flag and error value with the schedule and room map empty and
every faculty load still zero (no assignment was attempted); otherwise it
returns the success flag and a results value whose details list pairs each
loaded subject, in scheduling order, with its needed-versus-scheduled
counts — it never raises on infeasibility. -/
theorem C7_generate_schedule_outcomes (subjects : List Subject)
    (faculty : List Faculty) (available_slots : List Slot)
    (locations : List Location) (rng : List Nat) :
    ((subjects = [] ∨ faculty = []) →
      (generate_schedule subjects faculty available_slots locations rng).1 =
        (false, GenOutput.err "Failed to load data") ∧
      (generate_schedule subjects faculty available_slots locations
        rng).2.schedule = [] ∧
      (generate_schedule subjects faculty available_slots locations
        rng).2.room_assignments = [] ∧
      (∀ p ∈ (generate_schedule subjects faculty available_slots locations
        rng).2.faculty_load, p.2 = 0)) ∧
    (subjects ≠ [] → faculty ≠ [] →
      ∃ results,
        (generate_schedule subjects faculty available_slots locations
          rng).1 = (true, GenOutput.ok results) ∧
        results.total_subjects = subjects.length ∧
        List.Perm (sort_subjects_desc subjects) subjects ∧
        List.Forall₂ (fun (d : SubjectStats) (subj : Subject) =>
          d.subject_name = subj.subject_name ∧ d.code = subj.code ∧
          d.lectures_needed = subj.lecture_credits ∧
          d.labs_needed = subj.lab_credits)
          results.details (sort_subjects_desc subjects)) := by
  constructor
  · intro hempty
    have hcond : subjects.isEmpty ∨ faculty.isEmpty := by
      rcases hempty with h | h
      · left; rw [h]; rfl
      · right; rw [h]; rfl
    unfold generate_schedule
    rw [if_pos hcond]
    refine ⟨rfl, rfl, rfl, ?_⟩
    intro p hp
    unfold init_state init_loads at hp
    simp only [List.mem_map] at hp
    obtain ⟨k, _, hk⟩ := hp
    rw [← hk]
  · intro hs hf
    have hcond : ¬ (subjects.isEmpty ∨ faculty.isEmpty) := by
      rintro (h | h)
      · exact hs (List.isEmpty_iff.mp h)
      · exact hf (List.isEmpty_iff.mp h)
    unfold generate_schedule
    rw [if_neg hcond]
    refine ⟨_, rfl, ?_, sort_subjects_desc_perm subjects, ?_⟩
    · show (sort_subjects_desc subjects).length = subjects.length
      exact (sort_subjects_desc_perm subjects).length_eq
    · exact schedule_all_subjects_details (sort_subjects_desc subjects) _ rng

/-- Witness for C7: the empty branch at one concrete faculty and no
subjects, and the success branch at one subject and one faculty. -/
theorem C7_witness :
    (([] : List Subject) = [] ∨ ([⟨1, "Monday", 24⟩] : List Faculty) = []) ∧
    (generate_schedule [] [⟨1, "Monday", 24⟩]
        [⟨101, "Monday", 1, 540, 600⟩] [] []).1 =
      (false, GenOutput.err "Failed to load data") ∧
    (generate_schedule [] [⟨1, "Monday", 24⟩] [⟨101, "Monday", 1, 540, 600⟩]
        [] []).2.schedule = [] ∧
    (generate_schedule [] [⟨1, "Monday", 24⟩] [⟨101, "Monday", 1, 540, 600⟩]
        [] []).2.room_assignments = [] ∧
    (∀ p ∈ (generate_schedule [] [⟨1, "Monday", 24⟩]
        [⟨101, "Monday", 1, 540, 600⟩] [] []).2.faculty_load, p.2 = 0) ∧
    (∃ results,
      (generate_schedule [⟨10, "DB Lab", "CS201", 3, 1, 0⟩]
        [⟨1, "Monday", 24⟩] [⟨101, "Monday", 1, 540, 600⟩] [] [0]).1 =
        (true, GenOutput.ok results) ∧
      results.total_subjects = 1 ∧
      List.Perm (sort_subjects_desc [⟨10, "DB Lab", "CS201", 3, 1, 0⟩])
        [⟨10, "DB Lab", "CS201", 3, 1, 0⟩] ∧
      List.Forall₂ (fun (d : SubjectStats) (subj : Subject) =>
        d.subject_name = subj.subject_name ∧ d.code = subj.code ∧
        d.lectures_needed = subj.lecture_credits ∧
        d.labs_needed = subj.lab_credits)
        results.details
        (sort_subjects_desc [⟨10, "DB Lab", "CS201", 3, 1, 0⟩])) := by
  have h1 := (C7_generate_schedule_outcomes [] [⟨1, "Monday", 24⟩]
    [⟨101, "Monday", 1, 540, 600⟩] [] []).1 (Or.inl rfl)
  have h2 := (C7_generate_schedule_outcomes [⟨10, "DB Lab", "CS201", 3, 1, 0⟩]
    [⟨1, "Monday", 24⟩] [⟨101, "Monday", 1, 540, 600⟩] [] [0]).2
    (by decide) (by decide)
  exact ⟨Or.inl rfl, h1.1, h1.2.1, h1.2.2.1, h1.2.2.2, h2⟩

/-- C1 fails on the code: `schedule_labs` checks availability of both slots
of a lab block against the same pre-commit load, then commits both, so a
faculty with a weekly cap of one hour ends the run with two assigned hours
(`faculty_load = 2 > max_hours_per_week = 1`).  The theorem evaluates
`generate_schedule` at this failing input. -/
theorem C1_lab_block_exceeds_weekly_cap :
    (generate_schedule [⟨10, "DB Lab", "CS201", 3, 0, 2⟩] [⟨1, "Monday", 1⟩]
        [⟨101, "Monday", 1, 540, 600⟩, ⟨102, "Monday", 2, 600, 660⟩] []
        []).2.faculty_load = [(1, 2)] ∧
    (⟨1, "Monday", 1⟩ : Faculty).max_hours_per_week = 1 ∧
    ¬ (∀ p ∈ (generate_schedule [⟨10, "DB Lab", "CS201", 3, 0, 2⟩]
        [⟨1, "Monday", 1⟩]
        [⟨101, "Monday", 1, 540, 600⟩, ⟨102, "Monday", 2, 600, 660⟩] []
        []).2.faculty_load,
      p.2 ≤ (⟨1, "Monday", 1⟩ : Faculty).max_hours_per_week) := by
  refine ⟨by decide, rfl, ?_⟩
  intro hall
  have h2 := hall (1, 2) (by decide)
  exact absurd h2 (by decide)

lemma slot_assigned_false (st : SchedState) (id : Nat)
    (h : slot_assigned st id = false) :
    st.schedule.find? (fun p => p.1 = id) = none := by
  unfold slot_assigned dict_find? at h
  cases hf : st.schedule.find? (fun p => p.1 = id) with
  | none => rfl
  | some p => rw [hf] at h; simp at h

lemma dict_set_fresh {α : Type} (k : Nat) (v : α) (m : List (Nat × α))
    (h : m.find? (fun p => p.1 = k) = none) :
    dict_set k v m = m ++ [(k, v)] := by
  unfold dict_set
  rw [h]
  rfl

lemma find?_key_append_none {α : Type} (m : List (Nat × α)) (k k' : Nat)
    (v : α) (h : m.find? (fun p => p.1 = k) = none) (hne : ¬ k' = k) :
    (m ++ [(k', v)]).find? (fun p => p.1 = k) = none := by
  induction m with
  | nil =>
    simp only [List.nil_append]
    rw [List.find?_cons_of_neg _ (by simp [hne])]
    rfl
  | cons p rest ih =>
    rw [List.cons_append]
    by_cases hp : p.1 = k
    · rw [List.find?_cons_of_pos _ (by simp [hp])] at h
      exact Option.noConfusion h
    · rw [List.find?_cons_of_neg _ (by simp [hp])] at h
      rw [List.find?_cons_of_neg _ (by simp [hp])]
      exact ih h

lemma find?_id_of_nodup :
    ∀ (l : List Slot), (l.map (fun s => s.id)).Nodup →
      ∀ s ∈ l, l.find? (fun x => x.id = s.id) = some s := by
  intro l
  induction l with
  | nil => intro _ s hs; simp at hs
  | cons x xs ih =>
    intro hnd s hs
    rw [List.map_cons, List.nodup_cons] at hnd
    rcases List.mem_cons.mp hs with rfl | hs2
    · rw [List.find?_cons_of_pos _ (by simp)]
    · have hne : ¬ x.id = s.id := by
        intro he
        apply hnd.1
        rw [he]
        exact List.mem_map.mpr ⟨s, hs2, rfl⟩
      rw [List.find?_cons_of_neg _ (by simp [hne])]
      exact ih hnd.2 s hs2

/-- On a duplicate-free slot table, looking a slot's own id up returns it. -/
lemma find_slot_of_nodup (st : SchedState)
    (hnd : (st.available_slots.map (fun s => s.id)).Nodup) (s : Slot)
    (hs : s ∈ st.available_slots) : find_slot st s.id = some s :=
  find?_id_of_nodup st.available_slots hnd s hs

lemma assign_room_avail (st : SchedState) (sid : Nat) (t : String) :
    (assign_room st sid t).1.available_slots = st.available_slots := by
  unfold assign_room
  dsimp only
  repeat' split
  all_goals rfl

lemma assign_room_schedule (st : SchedState) (sid : Nat) (t : String) :
    (assign_room st sid t).1.schedule = st.schedule := by
  unfold assign_room
  dsimp only
  repeat' split
  all_goals rfl

/-- `lab_paired` only reads the schedule and the slot table. -/
lemma lab_paired_congr (st st' : SchedState)
    (hsched : st'.schedule = st.schedule)
    (havail : st'.available_slots = st.available_slots)
    (h : lab_paired st) : lab_paired st' := by
  intro sid a hmem htype
  rw [hsched] at hmem
  obtain ⟨sid2, a2, s, s2, h1, h2, h3, h4, h5, h6, h7, h8, h9⟩ :=
    h sid a hmem htype
  refine ⟨sid2, a2, s, s2, ?_, h2, h3, h4, h5, ?_, ?_, h8, h9⟩
  · rw [hsched]; exact h1
  · unfold find_slot; rw [havail]; exact h6
  · unfold find_slot; rw [havail]; exact h7

/-- Appending a lecture assignment cannot break the lab-block shape. -/
lemma lab_paired_extend_lecture (st st' : SchedState) (id subj fid : Nat)
    (hsched : st'.schedule = st.schedule ++ [(id, ⟨subj, fid, "lecture"⟩)])
    (havail : st'.available_slots = st.available_slots)
    (h : lab_paired st) : lab_paired st' := by
  intro sid a hmem htype
  rw [hsched] at hmem
  rcases List.mem_append.mp hmem with hold | hnew
  · obtain ⟨sid2, a2, s, s2, h1, h2, h3, h4, h5, h6, h7, h8, h9⟩ :=
      h sid a hold htype
    refine ⟨sid2, a2, s, s2, ?_, h2, h3, h4, h5, ?_, ?_, h8, h9⟩
    · rw [hsched]; exact List.mem_append_left _ h1
    · unfold find_slot; rw [havail]; exact h6
    · unfold find_slot; rw [havail]; exact h7
  · simp only [List.mem_singleton] at hnew
    have ha : a = ⟨subj, fid, "lecture"⟩ := congrArg Prod.snd hnew
    rw [ha] at htype
    simp at htype

/-- Appending a full lab block (both slots, same subject and faculty,
consecutive slot numbers on one day) keeps the lab-block shape: each new
entry's partner is the other one. -/
lemma lab_paired_extend_pair (st st' : SchedState) (id1 id2 subj fid : Nat)
    (s1 s2 : Slot)
    (hsched : st'.schedule = st.schedule ++
      [(id1, ⟨subj, fid, "lab"⟩), (id2, ⟨subj, fid, "lab"⟩)])
    (havail : st'.available_slots = st.available_slots)
    (hf1 : find_slot st id1 = some s1) (hf2 : find_slot st id2 = some s2)
    (hday : s2.day = s1.day) (hnum : s2.slot_number = s1.slot_number + 1)
    (hne : ¬ id1 = id2) (h : lab_paired st) : lab_paired st' := by
  have hf1' : find_slot st' id1 = some s1 := by
    unfold find_slot; rw [havail]; exact hf1
  have hf2' : find_slot st' id2 = some s2 := by
    unfold find_slot; rw [havail]; exact hf2
  intro sid a hmem htype
  rw [hsched] at hmem
  rcases List.mem_append.mp hmem with hold | hnew
  · obtain ⟨sid2, a2, s, s2x, h1, h2, h3, h4, h5, h6, h7, h8, h9⟩ :=
      h sid a hold htype
    refine ⟨sid2, a2, s, s2x, ?_, h2, h3, h4, h5, ?_, ?_, h8, h9⟩
    · rw [hsched]; exact List.mem_append_left _ h1
    · unfold find_slot; rw [havail]; exact h6
    · unfold find_slot; rw [havail]; exact h7
  · simp only [List.mem_cons, List.not_mem_nil, or_false] at hnew
    rcases hnew with heq | heq
    · have hsid : sid = id1 := congrArg Prod.fst heq
      have ha : a = ⟨subj, fid, "lab"⟩ := congrArg Prod.snd heq
      subst hsid
      refine ⟨id2, ⟨subj, fid, "lab"⟩, s1, s2, ?_, fun hq => hne hq.symm,
        rfl, ?_, ?_, hf1', hf2', hday, Or.inl hnum⟩
      · rw [hsched]
        refine List.mem_append_right _ ?_
        simp
      · rw [ha]
      · rw [ha]
    · have hsid : sid = id2 := congrArg Prod.fst heq
      have ha : a = ⟨subj, fid, "lab"⟩ := congrArg Prod.snd heq
      subst hsid
      refine ⟨id1, ⟨subj, fid, "lab"⟩, s2, s1, ?_, fun hq => hne hq,
        rfl, ?_, ?_, hf2', hf1', hday.symm, Or.inr hnum⟩
      · rw [hsched]
        refine List.mem_append_right _ ?_
        simp
      · rw [ha]
      · rw [ha]

lemma preserves_refl (st : SchedState) : preserves st st :=
  ⟨rfl, fun _ h => h⟩

lemma preserves_trans (st1 st2 st3 : SchedState) (h12 : preserves st1 st2)
    (h23 : preserves st2 st3) : preserves st1 st3 := by
  refine ⟨h23.1.trans h12.1, fun hnd hlp => ?_⟩
  refine h23.2 ?_ (h12.2 hnd hlp)
  rw [h12.1]
  exact hnd

/-- Assigning a lecture to a slot not yet in the schedule preserves the
lab-block shape. -/
lemma preserves_assign_slot_lecture (st : SchedState) (id subj fid : Nat)
    (hfree : slot_assigned st id = false) :
    preserves st (assign_slot st id subj fid "lecture") := by
  refine ⟨rfl, fun hnd hlp => ?_⟩
  refine lab_paired_extend_lecture st _ id subj fid ?_ rfl hlp
  show dict_set id ⟨subj, fid, "lecture"⟩ st.schedule =
    st.schedule ++ [(id, ⟨subj, fid, "lecture"⟩)]
  exact dict_set_fresh _ _ _ (slot_assigned_false st id hfree)

lemma preserves_assign_room (st : SchedState) (sid : Nat) (t : String) :
    preserves st (assign_room st sid t).1 := by
  refine ⟨assign_room_avail st sid t, fun hnd hlp => ?_⟩
  exact lab_paired_congr st _ (assign_room_schedule st sid t)
    (assign_room_avail st sid t) hlp

lemma py_choice_mem {α : Type} (xs : List α) (rng : List Nat) (x : α)
    (h : (py_choice xs rng).1 = some x) : x ∈ xs := by
  cases xs with
  | nil => simp [py_choice] at h
  | cons x0 rest =>
    cases rng with
    | nil =>
      simp only [py_choice, Option.some.injEq] at h
      rw [← h]
      exact List.mem_cons_self _ _
    | cons r rng' =>
      simp only [py_choice] at h
      have h2 := Option.some.inj h
      rw [← h2]
      exact List.get_mem _ _ _

lemma preserves_try_faculty_lecture (subj : Nat) (slot : Slot) :
    ∀ (el : List Nat) (st st' : SchedState),
      slot_assigned st slot.id = false →
      try_faculty_lecture subj slot st el = some st' →
      preserves st st' := by
  intro el
  induction el with
  | nil => intro st st' _ h; simp [try_faculty_lecture] at h
  | cons fid rest ih =>
    intro st st' hfree h
    unfold try_faculty_lecture at h
    split at h
    · have hst' := (Option.some.inj h).symm
      rw [hst']
      exact preserves_trans _ _ _
        (preserves_assign_slot_lecture st slot.id subj fid hfree)
        (preserves_assign_room _ slot.id "lecture")
    · exact ih st st' hfree h

/-- Unfolding equation of the lecture-scheduling loop at positive fuel. -/
lemma schedule_lectures_loop_succ (subj hours : Nat) (el : List Nat)
    (fuel sched : Nat) (days : List String) (st : SchedState)
    (rng : List Nat) :
    schedule_lectures_loop subj hours el (fuel + 1) sched days st rng =
      if sched < hours then
        (match py_choice (if (st.available_slots.filter (fun s =>
              s.day ∉ days ∧ ¬ slot_assigned st s.id = true)).isEmpty then
            st.available_slots.filter (fun s => ¬ slot_assigned st s.id = true)
          else
            st.available_slots.filter (fun s =>
              s.day ∉ days ∧ ¬ slot_assigned st s.id = true)) rng with
        | (none, rng') => (sched, st, rng')
        | (some slot, rng') =>
          match try_faculty_lecture subj slot st el with
          | some st' => schedule_lectures_loop subj hours el fuel
              (sched + 1) (days ++ [slot.day]) st' rng'
          | none => schedule_lectures_loop subj hours el fuel sched days st
              rng')
      else (sched, st, rng) := rfl

lemma preserves_schedule_lectures_loop (subj hours : Nat) (el : List Nat) :
    ∀ (fuel sched : Nat) (days : List String) (st : SchedState)
      (rng : List Nat),
      preserves st
        (schedule_lectures_loop subj hours el fuel sched days st rng).2.1 := by
  intro fuel
  induction fuel with
  | zero => intro sched days st rng; exact preserves_refl st
  | succ fuel ih =>
    intro sched days st rng
    rw [schedule_lectures_loop_succ]
    by_cases hlt : sched < hours
    · rw [if_pos hlt]
      cases hpc : py_choice (if (st.available_slots.filter (fun s =>
            s.day ∉ days ∧ ¬ slot_assigned st s.id = true)).isEmpty then
          st.available_slots.filter (fun s => ¬ slot_assigned st s.id = true)
        else
          st.available_slots.filter (fun s =>
            s.day ∉ days ∧ ¬ slot_assigned st s.id = true)) rng with
      | mk o rng2 =>
        cases o with
        | none =>
          simp only [hpc]
          exact preserves_refl st
        | some slot =>
          have hmem := py_choice_mem _ rng slot
            (by rw [hpc])
          have hfree : slot_assigned st slot.id = false := by
            by_cases hpe : (st.available_slots.filter (fun s =>
                s.day ∉ days ∧ ¬ slot_assigned st s.id = true)).isEmpty
            · rw [if_pos hpe] at hmem
              have := (List.mem_filter.mp hmem).2
              have := of_decide_eq_true this
              rw [← Bool.not_eq_true]
              exact this
            · rw [if_neg hpe] at hmem
              have := (List.mem_filter.mp hmem).2
              have := (of_decide_eq_true this).2
              rw [← Bool.not_eq_true]
              exact this
          cases htf : try_faculty_lecture subj slot st el with
          | none =>
            simp only [hpc, htf]
            exact ih sched days st rng2
          | some st' =>
            simp only [hpc, htf]
            exact preserves_trans _ _ _
              (preserves_try_faculty_lecture subj slot el st st' hfree htf)
              (ih (sched + 1) (days ++ [slot.day]) st' rng2)
    · rw [if_neg hlt]
      exact preserves_refl st

lemma preserves_schedule_lectures (st : SchedState) (rng : List Nat)
    (subj : Subject) : preserves st (schedule_lectures st rng subj).2.1 := by
  unfold schedule_lectures
  by_cases h0 : subj.lecture_credits = 0
  · rw [if_pos h0]
    exact preserves_refl st
  · rw [if_neg h0]
    by_cases he : (get_eligible_faculty st).isEmpty
    · rw [if_pos he]
      exact preserves_refl st
    · rw [if_neg he]
      exact preserves_schedule_lectures_loop subj.id subj.lecture_credits
        (get_eligible_faculty st) (st.available_slots.length * 2) 0 [] st rng

lemma lab_block_commit_avail (subj fid : Nat) :
    ∀ (ids : List Nat) (st : SchedState),
      (lab_block_commit subj fid st ids).available_slots =
        st.available_slots := by
  intro ids
  induction ids with
  | nil => intro st; rfl
  | cons sid rest ih =>
    intro st
    show (lab_block_commit subj fid
      (assign_room (assign_slot st sid subj fid "lab") sid "lab").1
      rest).available_slots = st.available_slots
    rw [ih]
    rw [assign_room_avail]
    rfl

/-- Committing a two-slot lab block to fresh slot ids appends exactly the
two lab entries, in order, and leaves the slot table unchanged. -/
lemma lab_block_commit_two (subj fid : Nat) (st : SchedState) (id1 id2 : Nat)
    (h1 : slot_assigned st id1 = false) (h2 : slot_assigned st id2 = false)
    (hne : ¬ id1 = id2) :
    (lab_block_commit subj fid st [id1, id2]).schedule =
      st.schedule ++ [(id1, ⟨subj, fid, "lab"⟩), (id2, ⟨subj, fid, "lab"⟩)] ∧
    (lab_block_commit subj fid st [id1, id2]).available_slots =
      st.available_slots := by
  refine ⟨?_, lab_block_commit_avail subj fid [id1, id2] st⟩
  have hs1 : (assign_slot st id1 subj fid "lab").schedule =
      st.schedule ++ [(id1, ⟨subj, fid, "lab"⟩)] := by
    show dict_set id1 ⟨subj, fid, "lab"⟩ st.schedule = _
    exact dict_set_fresh _ _ _ (slot_assigned_false st id1 h1)
  have hr1 : (assign_room (assign_slot st id1 subj fid "lab") id1
      "lab").1.schedule = st.schedule ++ [(id1, ⟨subj, fid, "lab"⟩)] := by
    rw [assign_room_schedule]
    exact hs1
  have hs2 : (assign_slot (assign_room (assign_slot st id1 subj fid "lab")
      id1 "lab").1 id2 subj fid "lab").schedule =
      st.schedule ++ [(id1, ⟨subj, fid, "lab"⟩), (id2, ⟨subj, fid, "lab"⟩)] := by
    show dict_set id2 ⟨subj, fid, "lab"⟩
      (assign_room (assign_slot st id1 subj fid "lab") id1 "lab").1.schedule
      = _
    rw [hr1]
    rw [dict_set_fresh _ _ _ (find?_key_append_none st.schedule id2 id1 _
      (slot_assigned_false st id2 h2) hne)]
    rw [List.append_assoc]
    rfl
  show (assign_room (assign_slot (assign_room (assign_slot st id1 subj fid
    "lab") id1 "lab").1 id2 subj fid "lab") id2 "lab").1.schedule = _
  rw [assign_room_schedule]
  exact hs2

lemma try_faculty_lab_some (st : SchedState) (subj : Nat) (ids : List Nat) :
    ∀ (el : List Nat) (st' : SchedState),
      try_faculty_lab st subj ids el = some st' →
      ∃ fid, st' = lab_block_commit subj fid st ids := by
  intro el
  induction el with
  | nil => intro st' h; simp [try_faculty_lab] at h
  | cons fid rest ih =>
    intro st' h
    unfold try_faculty_lab at h
    split at h
    · exact ⟨fid, (Option.some.inj h).symm⟩
    · exact ih st' h

/-- Unfolding of `find_consecutive_slots` at count 2, first step. -/
lemma find_consecutive_slots_two_eq (st : SchedState) (day : String)
    (n : Nat) :
    find_consecutive_slots st day n 2 =
      match st.available_slots.find? (fun s =>
          s.day = day ∧ s.slot_number = n + 0) with
      | none => none
      | some target =>
        if slot_assigned st target.id then none
        else
          match find_consecutive_slots_aux st day n 1 1 with
          | none => none
          | some rest => some (target.id :: rest) := rfl

/-- Unfolding of the auxiliary search at the second window slot. -/
lemma find_consecutive_slots_aux_one_eq (st : SchedState) (day : String)
    (n : Nat) :
    find_consecutive_slots_aux st day n 1 1 =
      match st.available_slots.find? (fun s =>
          s.day = day ∧ s.slot_number = n + 1) with
      | none => none
      | some target =>
        if slot_assigned st target.id then none
        else some [target.id] := rfl

/-- What a successful 2-slot window search guarantees: the returned ids are
those of two distinct unassigned slots of the day, with slot numbers `n` and
`n + 1`, and each id resolves to its slot. -/
lemma find_consecutive_slots_two (st : SchedState) (day : String) (n : Nat)
    (ids : List Nat)
    (hnd : (st.available_slots.map (fun s => s.id)).Nodup)
    (h : find_consecutive_slots st day n 2 = some ids) :
    ∃ s1 s2 : Slot, ids = [s1.id, s2.id] ∧
      find_slot st s1.id = some s1 ∧ find_slot st s2.id = some s2 ∧
      s1.day = day ∧ s2.day = day ∧
      s1.slot_number = n ∧ s2.slot_number = n + 1 ∧
      slot_assigned st s1.id = false ∧ slot_assigned st s2.id = false ∧
      ¬ s1.id = s2.id := by
  rw [find_consecutive_slots_two_eq] at h
  cases hf1 : st.available_slots.find? (fun s =>
      s.day = day ∧ s.slot_number = n + 0) with
  | none => rw [hf1] at h; exact absurd h (by simp)
  | some t1 =>
    rw [hf1] at h
    simp only [] at h
    by_cases ha1 : slot_assigned st t1.id
    · rw [if_pos ha1] at h; exact absurd h (by simp)
    · rw [if_neg ha1] at h
      rw [find_consecutive_slots_aux_one_eq] at h
      cases hf2 : st.available_slots.find? (fun s =>
          s.day = day ∧ s.slot_number = n + 1) with
      | none => rw [hf2] at h; exact absurd h (by simp)
      | some t2 =>
        rw [hf2] at h
        simp only [] at h
        by_cases ha2 : slot_assigned st t2.id
        · rw [if_pos ha2] at h; exact absurd h (by simp)
        · rw [if_neg ha2] at h
          have hids : ids = [t1.id, t2.id] := (Option.some.inj h).symm
          have hm1 : t1 ∈ st.available_slots := List.mem_of_find?_eq_some hf1
          have hm2 : t2 ∈ st.available_slots := List.mem_of_find?_eq_some hf2
          have hp1 : t1.day = day ∧ t1.slot_number = n + 0 := by
            have := List.find?_some hf1
            simpa using this
          have hp2 : t2.day = day ∧ t2.slot_number = n + 1 := by
            have := List.find?_some hf2
            simpa using this
          have hfs1 := find_slot_of_nodup st hnd t1 hm1
          have hfs2 := find_slot_of_nodup st hnd t2 hm2
          have hne : ¬ t1.id = t2.id := by
            intro heq
            rw [heq, hfs2] at hfs1
            have ht : t2 = t1 := Option.some.inj hfs1
            have := hp1.2
            rw [← ht] at this
            rw [hp2.2] at this
            omega
          refine ⟨t1, t2, hids, hfs1, hfs2, hp1.1, hp2.1, ?_, hp2.2, ?_, ?_,
            hne⟩
          · have := hp1.2; omega
          · rw [← Bool.not_eq_true]; exact ha1
          · rw [← Bool.not_eq_true]; exact ha2

/-- A successful lab-block commit issued from a successful window search
preserves the lab-block shape. -/
lemma preserves_lab_block_commit_of_found (st : SchedState) (day : String)
    (n : Nat) (ids : List Nat) (subj fid : Nat)
    (hf : find_consecutive_slots st day n 2 = some ids) :
    preserves st (lab_block_commit subj fid st ids) := by
  refine ⟨lab_block_commit_avail subj fid ids st, fun hnd hlp => ?_⟩
  obtain ⟨s1, s2, hids, hfs1, hfs2, hd1, hd2, hn1, hn2, hfree1, hfree2,
    hne⟩ := find_consecutive_slots_two st day n ids hnd hf
  subst hids
  obtain ⟨hsched, havail⟩ := lab_block_commit_two subj fid st s1.id s2.id
    hfree1 hfree2 hne
  refine lab_paired_extend_pair st _ s1.id s2.id subj fid s1 s2 hsched havail
    hfs1 hfs2 ?_ ?_ hne hlp
  · rw [hd1, hd2]
  · rw [hn1, hn2]

lemma preserves_schedule_labs_day_loop (subj : Nat) (el : List Nat)
    (needed : Nat) (day : String) :
    ∀ (slots : List Slot) (blocks : Nat) (st : SchedState),
      preserves st
        (schedule_labs_day_loop subj el needed day slots blocks st).2 := by
  intro slots
  induction slots with
  | nil => intro blocks st; exact preserves_refl st
  | cons slot rest ih =>
    intro blocks st
    unfold schedule_labs_day_loop
    by_cases hb : blocks ≥ needed
    · rw [if_pos hb]
      exact preserves_refl st
    · rw [if_neg hb]
      cases hf : find_consecutive_slots st day slot.slot_number 2 with
      | none =>
        simp only [hf]
        exact ih blocks st
      | some ids =>
        simp only [hf]
        cases ht : try_faculty_lab st subj ids el with
        | none =>
          simp only [ht]
          exact ih blocks st
        | some st' =>
          simp only [ht]
          obtain ⟨fid, hst'⟩ := try_faculty_lab_some st subj ids el st' ht
          refine preserves_trans st st' _ ?_ (ih (blocks + 1) st')
          rw [hst']
          exact preserves_lab_block_commit_of_found st day slot.slot_number
            ids subj fid hf

lemma preserves_schedule_labs_days_loop (subj : Nat) (el : List Nat)
    (needed : Nat) :
    ∀ (days : List String) (blocks : Nat) (st : SchedState),
      preserves st
        (schedule_labs_days_loop subj el needed days blocks st).2 := by
  intro days
  induction days with
  | nil => intro blocks st; exact preserves_refl st
  | cons day rest ih =>
    intro blocks st
    unfold schedule_labs_days_loop
    by_cases hb : blocks ≥ needed
    · rw [if_pos hb]
      exact preserves_refl st
    · rw [if_neg hb]
      exact preserves_trans _ _ _
        (preserves_schedule_labs_day_loop subj el needed day
          (sort_by_slot_number (st.available_slots.filter
            (fun s => s.day = day))) blocks st)
        (ih _ _)

lemma preserves_schedule_labs (st : SchedState) (subject : Subject) :
    preserves st (schedule_labs st subject).2 := by
  unfold schedule_labs
  by_cases h0 : subject.lab_credits = 0
  · rw [if_pos h0]
    exact preserves_refl st
  · rw [if_neg h0]
    by_cases he : (get_eligible_faculty st).isEmpty
    · rw [if_pos he]
      exact preserves_refl st
    · rw [if_neg he]
      exact preserves_schedule_labs_days_loop subject.id
        (get_eligible_faculty st) ((subject.lab_credits + 1) / 2)
        (py_set_list (st.available_slots.map (fun s => s.day))) 0 st

lemma preserves_schedule_subject (st : SchedState) (rng : List Nat)
    (subject : Subject) :
    preserves st (schedule_subject st rng subject).2.1 := by
  unfold schedule_subject
  exact preserves_trans _ _ _ (preserves_schedule_lectures st rng subject)
    (preserves_schedule_labs (schedule_lectures st rng subject).2.1 subject)

lemma preserves_schedule_all_subjects :
    ∀ (subs : List Subject) (st : SchedState) (rng : List Nat),
      preserves st (schedule_all_subjects subs st rng).2.1 := by
  intro subs
  induction subs with
  | nil => intro st rng; exact preserves_refl st
  | cons subj rest ih =>
    intro st rng
    unfold schedule_all_subjects
    exact preserves_trans _ _ _ (preserves_schedule_subject st rng subj)
      (ih _ _)

/-- C2: in every completed schedule, each lab assignment is half of a block:
another lab assignment of the same subject and faculty sits on a slot of the
same day whose slot number differs by exactly one, and the two were committed
together.  Requires the slot table's primary keys to be duplicate-free, as
the database guarantees. -/
theorem C2_lab_blocks_paired (subjects : List Subject)
    (faculty : List Faculty) (available_slots : List Slot)
    (locations : List Location) (rng : List Nat)
    (hnd : (available_slots.map (fun s => s.id)).Nodup) :
    lab_paired
      (generate_schedule subjects faculty available_slots locations
        rng).2 := by
  unfold generate_schedule
  by_cases hempty : subjects.isEmpty ∨ faculty.isEmpty
  · rw [if_pos hempty]
    intro sid a hmem _
    exact absurd hmem (by simp [init_state])
  · rw [if_neg hempty]
    have h0 : lab_paired { init_state subjects faculty available_slots
        locations with subjects := sort_subjects_desc subjects } := by
      intro sid a hmem _
      exact absurd hmem (by simp [init_state])
    have hpres := preserves_schedule_all_subjects
      (sort_subjects_desc subjects)
      { init_state subjects faculty available_slots locations with
        subjects := sort_subjects_desc subjects } rng
    have hnd1 : ((SchedState.available_slots
        { init_state subjects faculty available_slots locations with
          subjects := sort_subjects_desc subjects }).map
        (fun s => s.id)).Nodup := hnd
    have hres := hpres.2 hnd1 h0
    exact lab_paired_congr _ _ rfl rfl hres

/-- Witness for C2 at the concrete two-slot Monday input. -/
theorem C2_witness :
    (([⟨101, "Monday", 1, 540, 600⟩, ⟨102, "Monday", 2, 600, 660⟩] :
      List Slot).map (fun s => s.id)).Nodup ∧
    lab_paired (generate_schedule [⟨10, "DB Lab", "CS201", 3, 0, 2⟩]
      [⟨1, "Monday", 1⟩]
      [⟨101, "Monday", 1, 540, 600⟩, ⟨102, "Monday", 2, 600, 660⟩] []
      []).2 :=
  ⟨by decide,
    C2_lab_blocks_paired [⟨10, "DB Lab", "CS201", 3, 0, 2⟩]
      [⟨1, "Monday", 1⟩]
      [⟨101, "Monday", 1, 540, 600⟩, ⟨102, "Monday", 2, 600, 660⟩] [] []
      (by decide)⟩

end Timetable
